import Mathlib

/-!
Verification development for the invoice-handler extraction pipeline.

The Python source is shallowly embedded:
* provider JSON payloads become the inductive `JVal`;
* machine floats become exact rationals (`ℚ`);
* code that can raise a Python exception is modelled in `Except Unit`,
  with a caught exception corresponding to `Except.error ()`;
* external collaborators (HTTP transport, the `dateutil` parser, the
  `urllib` quoting function, the filesystem) are passed in as explicit
  parameters or oracle records.
-/

set_option maxRecDepth 4000

namespace InvoiceHandler

/-- JSON-like values as produced by parsing the analysis provider's
responses (`resp.json()` in the source). -/
inductive JVal where
  | null
  | bool (b : Bool)
  | num (q : ℚ)
  | str (s : String)
  | arr (xs : List JVal)
  | obj (kvs : List (String × JVal))

/-- First-match association-list lookup, the model of Python `dict` access
for string-keyed JSON objects (parsed JSON has unique keys, so first-match
agrees with Python). -/
def alookup {α : Type} (l : List (String × α)) (k : String) : Option α :=
  match l with
  | [] => none
  | (k1, v) :: rest => if k1 = k then some v else alookup rest k

/-- Python truthiness (`bool(v)`) for JSON values. -/
def jTruthy : JVal → Bool
  | .null => false
  | .bool b => b
  | .num q => decide (q ≠ 0)
  | .str s => decide (s ≠ "")
  | .arr xs => !xs.isEmpty
  | .obj kvs => !kvs.isEmpty

/-- Python `a or b` on JSON values. -/
def pyOrJ (a b : JVal) : JVal := if jTruthy a then a else b

/-- Equality of scalar JSON values used as Python `dict` keys
(`page_number in page_dims`); mirrors Python `==`, including
`True == 1`.  Containers are unhashable in Python and are filtered out
before any key lookup, so they compare unequal here. -/
def jKeyEq : JVal → JVal → Bool
  | .null, .null => true
  | .bool a, .bool b => a == b
  | .num a, .num b => a == b
  | .str a, .str b => a == b
  | .bool a, .num b => decide ((if a then (1 : ℚ) else 0) = b)
  | .num a, .bool b => decide (a = (if b then (1 : ℚ) else 0))
  | _, _ => false

/-- Lookup in a JSON-keyed association list (the `page_dims` dict). -/
def alookupJ {α : Type} (l : List (JVal × α)) (k : JVal) : Option α :=
  match l with
  | [] => none
  | (k1, v) :: rest => if jKeyEq k1 k then some v else alookupJ rest k

/-- Python `d[k] = v` on a JSON-keyed dict: replace in place, else append. -/
def setKeyJ {α : Type} (l : List (JVal × α)) (k : JVal) (v : α) : List (JVal × α) :=
  match l with
  | [] => [(k, v)]
  | (k1, v1) :: rest =>
    if jKeyEq k1 k then (k1, v) :: rest else (k1, v1) :: setKeyJ rest k v

/-- Python `d[k] = v` on a string-keyed dict: replace in place, else append. -/
def setKeyS {α : Type} (l : List (String × α)) (k : String) (v : α) : List (String × α) :=
  match l with
  | [] => [(k, v)]
  | (k1, v1) :: rest =>
    if k1 = k then (k1, v) :: rest else (k1, v1) :: setKeyS rest k v

/-- Does the character list `pre` occur at the head of `cs`? -/
def leadsWith : List Char → List Char → Bool
  | [], _ => true
  | _ :: _, [] => false
  | a :: as, b :: bs => a == b && leadsWith as bs

/-- Does `needle` occur contiguously inside `hay`?  Model of Python's
substring test `needle in hay`. -/
def occursIn (needle : List Char) : List Char → Bool
  | [] => needle.isEmpty
  | c :: cs => leadsWith needle (c :: cs) || occursIn needle cs

/-- Python `needle in hay` on strings. -/
def strHas (hay needle : String) : Bool := occursIn needle.data hay.data

/-- Python `s.startswith(pre)`. -/
def strStarts (s pre : String) : Bool := leadsWith pre.data s.data

/-- Python `s.lower()` (agrees with Python on ASCII and on Hebrew, which
has no case). -/
def strLower (s : String) : String := String.mk (s.data.map Char.toLower)

/-- All characters are decimal digits. -/
def allDigits (cs : List Char) : Bool := cs.all (·.isDigit)

/-- Numeric value of a digit string. -/
def natOfDigits (cs : List Char) : Nat := cs.foldl (fun n c => n * 10 + (c.toNat - 48)) 0

/-- Python `float(s)` restricted to plain signed decimal literals
(`[+-]?digits[.digits]?`); other accepted inputs such as exponents do not
occur in provider payloads.  Failure (`ValueError`) is `none`. -/
def parseDec (s0 : String) : Option ℚ :=
  let s := s0.trim
  let sgn : ℚ := if strStarts s "-" then -1 else 1
  let rest := if strStarts s "-" || strStarts s "+" then s.drop 1 else s
  match rest.splitOn "." with
  | [a] =>
    if a ≠ "" && allDigits a.data then some (sgn * natOfDigits a.data) else none
  | [a, b] =>
    if (a ≠ "" || b ≠ "") && allDigits a.data && allDigits b.data then
      some (sgn * ((natOfDigits a.data : ℚ) + (natOfDigits b.data : ℚ) / (10 ^ b.length)))
    else none
  | _ => none

/-- Python `int(s)` on strings (plain signed integer literals), as used by
the schema's integer coercion. -/
def parseIntStr (s0 : String) : Option ℤ :=
  let s := s0.trim
  let sgn : ℤ := if strStarts s "-" then -1 else 1
  let rest := if strStarts s "-" || strStarts s "+" then s.drop 1 else s
  if rest ≠ "" && allDigits rest.data then some (sgn * natOfDigits rest.data) else none

/-- `_safe_float(v)`: `float(v)` with every exception mapped to `None`. -/
def safeFloat : JVal → Option ℚ
  | .null => none
  | .bool b => some (if b then 1 else 0)
  | .num q => some q
  | .str s => parseDec s
  | .arr _ => none
  | .obj _ => none

/-! ## Heuristic classifier (`classifier.py`) -/

/-- Characters of the Hebrew Unicode block U+0590–U+05FF. -/
def isHebrewChar (c : Char) : Bool := 0x590 ≤ c.toNat && c.toNat ≤ 0x5FF

/-- `detect_language`: `"he"` iff the text contains a Hebrew character. -/
def detect_language (text : String) : String :=
  if text.data.any isHebrewChar then "he" else "en"

/-- `RECEIPT_KEYWORDS` from `classifier.py`. -/
def RECEIPT_KEYWORDS : List String := ["receipt", "sales receipt", "קבלה"]

/-- `INVOICE_KEYWORDS` from `classifier.py`. -/
def INVOICE_KEYWORDS : List String :=
  ["invoice", "tax invoice", "חשבונית", "חשבונית מס", "חשבונית מס קבלה", "חשבון"]

/-- `sum(1 for k in ks if k in lower)`: the number of keywords of `ks`
occurring in `lower` (each keyword counted at most once, regardless of how
many times it occurs). -/
def countHits (ks : List String) (lower : String) : Nat :=
  (ks.filter (fun k => strHas lower k)).length

/-- The generic monetary-context test `re.search(r"total|subtotal|tax|amount|סך|סה\"כ|מע\"מ", lower)`:
a disjunction of literal substring tests. -/
def monetarySignal (lower : String) : Bool :=
  ["total", "subtotal", "tax", "amount", "סך", "סה\"כ", "מע\"מ"].any (fun k => strHas lower k)

/-- `classify_text` from `classifier.py` (the unused `threshold` parameter
is omitted).  Scores are exact rationals in place of the source's floats. -/
def classify_text (text : String) : String × ℚ :=
  if text = "" then ("uncertain", 0)
  else
    let lower := strLower text
    let receipt_hits := countHits RECEIPT_KEYWORDS lower
    let invoice_hits := countHits INVOICE_KEYWORDS lower
    let total := receipt_hits + invoice_hits
    if total = 0 then
      if monetarySignal lower then ("uncertain", 2/5) else ("other", 3/10)
    else if receipt_hits > invoice_hits && receipt_hits ≥ 1 then
      ("receipt", min 1 (2/5 + 1/5 * (receipt_hits : ℚ)))
    else if invoice_hits > receipt_hits && invoice_hits ≥ 1 then
      ("invoice", min 1 (2/5 + 1/5 * (invoice_hits : ℚ)))
    else
      ("uncertain", 9/20)

/-! ## Analysis gateway (`azure_di.py`)

The HTTP transport is abstracted into a response oracle: attempt `i` of
the submit loop observes `resp i`, poll `k` observes `resps k`.  Sleeps
are recorded as a list of the slept durations in seconds. -/

/-- One submit response: HTTP status plus the parsed `Retry-After` header
when present. -/
structure SubmitResp where
  status : Nat
  retryAfter : Option Nat

/-- Outcome of `_post_analyze`'s submit/retry loop.  `ok a` means attempt
`a` got a 2xx response and proceeded to the operation (whose polling is
modelled separately); `err s a` means an `HTTPStatusError` with status `s`
raised at attempt `a` escaped to the caller; `noAttempt` is the
`max_retries = 0` case where the loop body never runs. -/
inductive SubmitOutcome where
  | ok (attempt : Nat)
  | err (status : Nat) (attempt : Nat)
  | noAttempt
deriving DecidableEq, Repr

/-- The retry loop of `_post_analyze`, fuelled by the remaining loop
iterations.  Mirrors: 2xx proceeds; 429 sleeps `Retry-After` if present
else `2 ** attempt` and retries while `attempt < max_retries - 1`, else the
429 error is raised; any other status raises immediately
(`raise_for_status` plus the immediate re-`raise` in the handler). -/
def post_analyze_go (resp : Nat → SubmitResp) (maxRetries : Nat) (attempt : Nat) :
    Nat → SubmitOutcome × List Nat
  | 0 => (.noAttempt, [])
  | fuel + 1 =>
    let r := resp attempt
    if 200 ≤ r.status ∧ r.status ≤ 299 then (.ok attempt, [])
    else if r.status = 429 then
      if attempt < maxRetries - 1 then
        let ra := r.retryAfter.getD (2 ^ attempt)
        let rec1 := post_analyze_go resp maxRetries (attempt + 1) fuel
        (rec1.1, ra :: rec1.2)
      else (.err 429 attempt, [])
    else (.err r.status attempt, [])

/-- `_post_analyze`'s submit loop: `for attempt in range(max_retries)`. -/
def post_analyze (resp : Nat → SubmitResp) (maxRetries : Nat) : SubmitOutcome × List Nat :=
  post_analyze_go resp maxRetries 0 maxRetries

/-- The sleeps performed by attempts `a, a+1, ..., a+n-1` when each of them
is rate-limited: the provider-suggested `Retry-After` when present, else
`2 ^ attemptIndex` seconds. -/
def backoffSleeps (resp : Nat → SubmitResp) (a : Nat) : Nat → List Nat
  | 0 => []
  | n + 1 => (resp a).retryAfter.getD (2 ^ a) :: backoffSleeps resp (a + 1) n

/-- One poll response: either a transport/HTTP error (which
`raise_for_status` turns into an exception) or a parsed JSON body. -/
inductive PollStep where
  | httpErr (code : Nat)
  | body (j : JVal)

/-- Outcome of `_poll_operation`: `ok k payload` terminates at poll index
`k`; `exn` models an escaping exception (HTTP error, or a body on which
`data.get` would raise); `timeout` is the exhausted poll budget
(`TimeoutError`, the spec's `AnalysisTimeout`). -/
inductive PollOutcome where
  | ok (idx : Nat) (payload : JVal)
  | exn
  | timeout

/-- `data.get("status") or data.get("operationState")`. -/
def statusOfBody (kvs : List (String × JVal)) : JVal :=
  pyOrJ ((alookup kvs "status").getD .null) ((alookup kvs "operationState").getD .null)

/-- `status in {"succeeded", "failed", "partiallySucceeded"}`. -/
def isTerminalStatus : JVal → Bool
  | .str s => s = "succeeded" || s = "failed" || s = "partiallySucceeded"
  | _ => false

/-- `data.get("analyzeResult") or data`: the returned payload, which does
not depend on which terminal status was observed. -/
def payloadOf (kvs : List (String × JVal)) : JVal :=
  pyOrJ ((alookup kvs "analyzeResult").getD .null) (.obj kvs)

/-- The poll loop body, fuelled by the remaining iterations; `k` is the
current poll index.  Each non-terminal poll sleeps 1 second. -/
def poll_operation_go (resps : Nat → PollStep) (k : Nat) : Nat → PollOutcome × List Nat
  | 0 => (.timeout, [])
  | fuel + 1 =>
    match resps k with
    | .httpErr _ => (.exn, [])
    | .body j =>
      match j with
      | .obj kvs =>
        if isTerminalStatus (statusOfBody kvs) then (.ok k (payloadOf kvs), [])
        else
          let rec1 := poll_operation_go resps (k + 1) fuel
          (rec1.1, 1 :: rec1.2)
      | _ => (.exn, [])

/-- `_poll_operation`: `for _ in range(60)` with a 1-second sleep after
each non-terminal poll. -/
def poll_operation (resps : Nat → PollStep) : PollOutcome × List Nat :=
  poll_operation_go resps 0 60

/-! ## Data model (`models.py`)

Pydantic models become plain structures; pydantic's construction-time
validation is modelled by the explicit coercion steps in the mappers
(`coerceOptStr`, `coerceConfidence`, `coerceConfMap`), whose failure is an
exception inside the mapper, exactly as a `ValidationError` would be. -/

/-- `BoundingBox`: polygon of normalized points plus the page number. -/
structure BoundingBox where
  polygon : List (List ℚ)
  page_number : ℤ
deriving DecidableEq, Repr

/-- `LineItem`. -/
structure LineItem where
  description : String
  quantity : Option ℚ
  unit_price : Option ℚ
  line_total : Option ℚ
deriving DecidableEq, Repr

/-- `InvoiceData` (the spec's CanonicalDocument).  Dictionaries become
association lists. -/
structure InvoiceData where
  file_name : String
  source_path : String
  file_url : Option String
  language : String
  document_type : String
  supplier_name : Option String
  invoice_number : Option String
  invoice_date : Option String
  currency : Option String
  subtotal : Option ℚ
  tax_amount : Option ℚ
  total : Option ℚ
  line_items : Option (List LineItem)
  confidence : Option ℚ
  bounding_boxes : Option (List (String × BoundingBox))
  page_count : Option Nat
  field_confidence : Option (List (String × ℚ))
deriving DecidableEq, Repr

/-! ## Canonical mapper (`mapping.py`) -/

/-- Page-dimension map: `page_number -> (width, height)`, keys and values
kept raw exactly as `_get_page_dimensions` stores whatever the payload
carried. -/
def PageDims : Type := List (JVal × (JVal × JVal))

/-- `di.get(k)` restricted to objects (the payload is an object wherever
the source reaches this call). -/
def objGet (j : JVal) (k : String) : JVal :=
  match j with
  | .obj kvs => (alookup kvs k).getD .null
  | _ => .null

/-- `fields.get(k, {})` on the located field bag. -/
def fieldGetD (fields : List (String × JVal)) (k : String) : JVal :=
  (alookup fields k).getD (.obj [])

/-- `(fields.get(k, {}) or {}).get("valueString") if isinstance(fields.get(k), dict) else None`,
returning the raw JSON value (`None` as `.null`). -/
def valueStringRaw (kvs : List (String × JVal)) (k : String) : JVal :=
  match alookup kvs k with
  | some (.obj fkv) => (alookup fkv "valueString").getD .null
  | _ => .null

/-- The two-key variant used for supplier name and invoice number:
`A if isinstance(f1, dict) else (B if isinstance(f2, dict) else None)`. -/
def valueStringRaw2 (kvs : List (String × JVal)) (k1 k2 : String) : JVal :=
  match alookup kvs k1 with
  | some (.obj fkv) => (alookup fkv "valueString").getD .null
  | _ => valueStringRaw kvs k2

/-- Same access pattern for `valueNumber`. -/
def valueNumberRaw (kvs : List (String × JVal)) (k : String) : JVal :=
  match alookup kvs k with
  | some (.obj fkv) => (alookup fkv "valueNumber").getD .null
  | _ => .null

/-- Same access pattern for `valueDate`. -/
def valueDateRaw (kvs : List (String × JVal)) (k : String) : JVal :=
  match alookup kvs k with
  | some (.obj fkv) => (alookup fkv "valueDate").getD .null
  | _ => .null

/-- `_parse_date`, with the external `dateutil` parser supplied as `dp`
(any parse failure inside the source's `try` is `dp _ = none`). -/
def parse_date (dp : JVal → Option String) (v : JVal) : Option String :=
  if jTruthy v then dp v else none

/-- `get_currency_value(field)` from the mappers: prefer a truthy
`valueCurrency` sub-object, else fall back to `valueNumber`.  The currency
code is kept raw (it is validated only at record construction).  A truthy
non-dict `valueCurrency` raises `AttributeError` in the source, hence
`.error`. -/
def getCurrencyValue (field : JVal) : Except Unit (Option ℚ × JVal) :=
  match field with
  | .obj kvs =>
    let co := (alookup kvs "valueCurrency").getD (.obj [])
    if jTruthy co then
      match co with
      | .obj ckv =>
        .ok (safeFloat ((alookup ckv "amount").getD .null), (alookup ckv "currencyCode").getD .null)
      | _ => .error ()
    else .ok (safeFloat ((alookup kvs "valueNumber").getD .null), .null)
  | _ => .ok (none, .null)

/-- Locating the field bag:
`di.get("documents", [{}])[0].get("fields", {}) if di.get("documents") else di.get("fields", {})`
restricted to the top-level `fields` branch. -/
def fieldsTop (kvs : List (String × JVal)) : Except Unit (List (String × JVal)) :=
  match (alookup kvs "fields").getD (.obj []) with
  | .obj f => .ok f
  | _ => .error ()

/-- Locate the field bag; `.error` wherever the source's chained accesses
would raise (non-object payload, truthy non-list `documents`, non-object
first document, non-object `fields` value). -/
def locateFields (di : JVal) : Except Unit (List (String × JVal)) :=
  match di with
  | .obj kvs =>
    match alookup kvs "documents" with
    | some docs =>
      if jTruthy docs then
        match docs with
        | .arr (d :: _) =>
          match d with
          | .obj dkv =>
            match (alookup dkv "fields").getD (.obj []) with
            | .obj f => .ok f
            | _ => .error ()
          | _ => .error ()
        | _ => .error ()
      else fieldsTop kvs
    | none => fieldsTop kvs
  | _ => .error ()

/-- One entry of the line-item loop; `kUnit`/`kTotal` are the per-shape
unit-price and line-total field names (`UnitPrice`/`Amount` for invoices,
`Price`/`TotalPrice` for receipts).  `none` means the item was dropped
for lacking a truthy description; a non-string truthy description fails
`LineItem` validation, hence `.error`. -/
def lineItemOf (kUnit kTotal : String) (it : JVal) : Except Unit (Option LineItem) :=
  match it with
  | .obj ikv =>
    match (alookup ikv "valueObject").getD (.obj []) with
    | .obj okv => do
      let descJ := valueStringRaw okv "Description"
      let quantity := safeFloat (valueNumberRaw okv "Quantity")
      let up ← getCurrencyValue (fieldGetD okv kUnit)
      let lt ← getCurrencyValue (fieldGetD okv kTotal)
      if jTruthy descJ then
        match descJ with
        | .str s => pure (some ⟨s, quantity, up.1, lt.1⟩)
        | _ => .error ()
      else pure none
    | _ => .error ()
  | _ => .error ()

/-- The line-item loop over `valueArray`. -/
def itemsGo (kUnit kTotal : String) : List JVal → Except Unit (List LineItem)
  | [] => .ok []
  | it :: rest => do
    let x ← lineItemOf kUnit kTotal it
    let xs ← itemsGo kUnit kTotal rest
    pure (match x with | some li => li :: xs | none => xs)

/-- `fields.get("Items", {}).get("valueArray", [])` iterated, guarded by
`isinstance(fields.get("Items"), dict)`.  Iterating a non-list truthy
`valueArray` raises in the source (empty strings/dicts iterate to
nothing). -/
def itemsOf (kUnit kTotal : String) (fields : List (String × JVal)) : Except Unit (List LineItem) :=
  match alookup fields "Items" with
  | some (.obj ikv) =>
    match (alookup ikv "valueArray").getD (.arr []) with
    | .arr its => itemsGo kUnit kTotal its
    | .str s => if s = "" then .ok [] else .error ()
    | .obj okv => if okv.isEmpty then .ok [] else .error ()
    | _ => .error ()
  | _ => .ok []

/-- `_get_page_count`. -/
def get_page_count (di : JVal) : Nat :=
  match di with
  | .obj kvs =>
    match (alookup kvs "pages").getD (.arr []) with
    | .arr ps => if ps.isEmpty then 1 else ps.length
    | .str s => if s = "" then 1 else s.length
    | .obj pkv => if pkv.isEmpty then 1 else pkv.length
    | _ => 1
  | _ => 1

/-- The page-dimension accumulation loop of `_get_page_dimensions`;
`none` models an exception inside the loop (non-dict page entry,
unhashable page number), which the source's `except` turns into the
default map. -/
def buildPageDims (acc : PageDims) : List JVal → Option PageDims
  | [] => some acc
  | .obj pkv :: rest =>
    let pn := (alookup pkv "pageNumber").getD (.num 1)
    match pn with
    | .arr _ => none
    | .obj _ => none
    | _ =>
      let w := (alookup pkv "width").getD (.num 1)
      let h := (alookup pkv "height").getD (.num 1)
      buildPageDims (setKeyJ acc pn (w, h)) rest
  | _ :: _ => none

/-- The `{1: (1, 1)}` fallback of `_get_page_dimensions`. -/
def defaultPageDims : PageDims := [(.num 1, (.num 1, .num 1))]

/-- `_get_page_dimensions`: page dimensions keyed by page number, with
the `{1: (1, 1)}` default when the payload lists no pages or the
extraction raises. -/
def get_page_dimensions (di : JVal) : PageDims :=
  match di with
  | .obj kvs =>
    match (alookup kvs "pages").getD (.arr []) with
    | .arr ps =>
      match buildPageDims [] ps with
      | some [] => defaultPageDims
      | some d => d
      | none => defaultPageDims
    | _ => defaultPageDims
  | _ => defaultPageDims

/-- Pydantic `int` coercion for `BoundingBox.page_number` (exact numbers
and plain integer strings; everything else is a `ValidationError`). -/
def intCoerce : JVal → Option ℤ
  | .num q => if q.den = 1 then some q.num else none
  | .str s => parseIntStr s
  | _ => none

/-- The normalization comprehension
`[[polygon[i]/pw, polygon[i+1]/ph] for i in range(0, len(polygon), 2)]`;
`none` models a raised `TypeError`/`IndexError` (non-numeric entry, odd
length), caught by the enclosing `try`. -/
def normPairs (pw ph : ℚ) : List JVal → Option (List (List ℚ))
  | [] => some []
  | .num a :: .num b :: rest => (normPairs pw ph rest).map (fun t => [a / pw, b / ph] :: t)
  | _ => none

/-- The first bounding region of `field.get("boundingRegions", [])`, as
an object (`bounding_regions[0]` followed by the region's own `.get`
accesses; any other shape raises inside the source's `try`). -/
def regionObjOf (field : JVal) : Option (List (String × JVal)) :=
  match field with
  | .obj fkv =>
    match (alookup fkv "boundingRegions").getD (.arr []) with
    | .arr (.obj rkv :: _) => some rkv
    | _ => none
  | _ => none

/-- The polygon value as a list (a non-list polygon raises when indexed
or fails the falsy/length test). -/
def asArr : JVal → Option (List JVal)
  | .arr xs => some xs
  | _ => none

/-- A page number usable as a `dict` key (containers are unhashable and
raise `TypeError`, caught by the `try`). -/
def scalarKey (pn : JVal) : Option JVal :=
  match pn with
  | .arr _ => none
  | .obj _ => none
  | _ => some pn

/-- The page width/height pair as numbers (dividing by anything else
raises `TypeError`). -/
def dimsPair : JVal × JVal → Option (ℚ × ℚ)
  | (.num pw, .num ph) => some (pw, ph)
  | _ => none

/-- `_extract_bounding_box`: first bounding region, polygon of at least
8 coordinates, page dimensions looked up by the raw page number; any
exception inside the source's `try` (including division by a zero page
dimension and `BoundingBox` validation) yields `none`. -/
def extract_bounding_box (field : JVal) (page_dims : PageDims) : Option BoundingBox :=
  (regionObjOf field).bind fun rkv =>
  (asArr ((alookup rkv "polygon").getD (.arr []))).bind fun poly =>
  if poly.length < 8 then none else
  (scalarKey ((alookup rkv "pageNumber").getD (.num 1))).bind fun pn =>
  (alookupJ page_dims pn).bind fun wh =>
  (dimsPair wh).bind fun pq =>
  if pq.1 = 0 ∨ pq.2 = 0 then none else
  (normPairs pq.1 pq.2 poly).bind fun pts =>
  (intCoerce pn).map fun n => ⟨pts, n⟩

/-- `_extract_field_confidence`: the raw `confidence` value of a dict
field; both an absent key and an explicit `null` are Python `None`. -/
def extract_field_confidence (field : JVal) : Option JVal :=
  match field with
  | .obj kvs =>
    match alookup kvs "confidence" with
    | some .null => none
    | some v => some v
    | none => none
  | _ => none

/-- The `field_mapping` dict of `map_invoice`, in its fixed iteration
(insertion) order. -/
def invoiceFieldMapping : List (String × String) :=
  [("VendorName", "supplier_name"), ("CustomerName", "supplier_name"),
   ("InvoiceId", "invoice_number"), ("InvoiceNumber", "invoice_number"),
   ("InvoiceDate", "invoice_date"), ("SubTotal", "subtotal"),
   ("TotalTax", "tax_amount"), ("InvoiceTotal", "total")]

/-- The `field_mapping` dict of `map_receipt`, in its fixed iteration
(insertion) order. -/
def receiptFieldMapping : List (String × String) :=
  [("MerchantName", "supplier_name"), ("TransactionDate", "invoice_date"),
   ("Subtotal", "subtotal"), ("TotalTax", "tax_amount"),
   ("Tax", "tax_amount"), ("Total", "total")]

/-- The bounding-box/confidence loop of `map_invoice`: both the bounding
box and the confidence are guarded by `if our_field_name not in ...`
(first wins, no overwrite). -/
def invoiceBoxLoopGo (fields : List (String × JVal)) (dims : PageDims) :
    List (String × String) → List (String × BoundingBox) → List (String × JVal) →
    List (String × BoundingBox) × List (String × JVal)
  | [], boxes, confs => (boxes, confs)
  | (az, ourf) :: rest, boxes, confs =>
    if (alookup fields az).isSome then
      let boxes1 :=
        if (alookup boxes ourf).isSome then boxes
        else
          match extract_bounding_box (fieldGetD fields az) dims with
          | some bb => boxes ++ [(ourf, bb)]
          | none => boxes
      let confs1 :=
        if (alookup confs ourf).isSome then confs
        else
          match extract_field_confidence (fieldGetD fields az) with
          | some c => confs ++ [(ourf, c)]
          | none => confs
      invoiceBoxLoopGo fields dims rest boxes1 confs1
    else invoiceBoxLoopGo fields dims rest boxes confs

/-- The invoice loop over `invoiceFieldMapping`. -/
def invoiceBoxLoop (fields : List (String × JVal)) (dims : PageDims) :
    List (String × BoundingBox) × List (String × JVal) :=
  invoiceBoxLoopGo fields dims invoiceFieldMapping [] []

/-- The bounding-box/confidence loop of `map_receipt`: the confidence is
guarded by `if our_field_name not in ...`, but the bounding-box
assignment `bounding_boxes[our_field_name] = bbox` is NOT guarded, so a
later provider field's box overwrites an earlier one. -/
def receiptBoxLoopGo (fields : List (String × JVal)) (dims : PageDims) :
    List (String × String) → List (String × BoundingBox) → List (String × JVal) →
    List (String × BoundingBox) × List (String × JVal)
  | [], boxes, confs => (boxes, confs)
  | (az, ourf) :: rest, boxes, confs =>
    if (alookup fields az).isSome then
      let boxes1 :=
        match extract_bounding_box (fieldGetD fields az) dims with
        | some bb => setKeyS boxes ourf bb
        | none => boxes
      let confs1 :=
        if (alookup confs ourf).isSome then confs
        else
          match extract_field_confidence (fieldGetD fields az) with
          | some c => confs ++ [(ourf, c)]
          | none => confs
      receiptBoxLoopGo fields dims rest boxes1 confs1
    else receiptBoxLoopGo fields dims rest boxes confs

/-- The receipt loop over `receiptFieldMapping`. -/
def receiptBoxLoop (fields : List (String × JVal)) (dims : PageDims) :
    List (String × BoundingBox) × List (String × JVal) :=
  receiptBoxLoopGo fields dims receiptFieldMapping [] []

/-- Pydantic coercion for `Optional[str]` fields. -/
def coerceOptStr : JVal → Except Unit (Option String)
  | .null => .ok none
  | .str s => .ok (some s)
  | _ => .error ()

/-- `_safe_float(di.get("confidence")) or None`. -/
def pyOrNoneQ : Option ℚ → Option ℚ
  | some q => if q = 0 then none else some q
  | none => none

/-- Pydantic validation of `confidence` (`ge=0.0, le=1.0`). -/
def coerceConfidence : Option ℚ → Except Unit (Option ℚ)
  | none => .ok none
  | some q => if 0 ≤ q ∧ q ≤ 1 then .ok (some q) else .error ()

/-- Pydantic `float` coercion for `field_confidence` values. -/
def confCoerce : JVal → Option ℚ
  | .num q => some q
  | .str s => parseDec s
  | _ => none

/-- Validate the raw per-field confidence dict at record construction. -/
def coerceConfMap : List (String × JVal) → Except Unit (List (String × ℚ))
  | [] => .ok []
  | (k, v) :: rest =>
    match confCoerce v with
    | some q => (coerceConfMap rest).map ((k, q) :: ·)
    | none => .error ()

/-- Python `xs or None` on lists / dicts modelled as lists. -/
def pyListOpt {α : Type} (xs : List α) : Option (List α) :=
  if xs.isEmpty then none else some xs

/-- The currency-code fallback of both mappers:
`if not currency_code: _, currency_code = get_currency_value(fields.get(subtotalKey, {}))`. -/
def currencyCodeFallback (fields : List (String × JVal)) (ccRaw : JVal) (subtotalKey : String) :
    Except Unit JVal :=
  if jTruthy ccRaw then pure ccRaw
  else do
    let sub2 ← getCurrencyValue (fieldGetD fields subtotalKey)
    pure sub2.2

/-- The tax fallback of `map_receipt`:
`if tax_val is None: tax_val, _ = get_currency_value(fields.get("Tax", {}))`. -/
def taxFallback (fields : List (String × JVal)) (t0 : Option ℚ) : Except Unit (Option ℚ) :=
  match t0 with
  | none => do
    let t ← getCurrencyValue (fieldGetD fields "Tax")
    pure t.1
  | some v => pure (some v)

/-- `map_invoice` from `mapping.py`; `dp` is the external `dateutil`
parser. -/
def map_invoice (dp : JVal → Option String) (di : JVal)
    (file_name source_path language : String) (file_url : Option String) :
    Except Unit InvoiceData := do
  let fields ← locateFields di
  let items ← itemsOf "UnitPrice" "Amount" fields
  let sub ← getCurrencyValue (fieldGetD fields "SubTotal")
  let tax ← getCurrencyValue (fieldGetD fields "TotalTax")
  let tot ← getCurrencyValue (fieldGetD fields "InvoiceTotal")
  let currency_code ← currencyCodeFallback fields tot.2 "SubTotal"
  let page_dims := get_page_dimensions di
  let page_count := get_page_count di
  let bc := invoiceBoxLoop fields page_dims
  let supplier_name ← coerceOptStr (valueStringRaw2 fields "VendorName" "CustomerName")
  let invoice_number ← coerceOptStr (valueStringRaw2 fields "InvoiceId" "InvoiceNumber")
  let invoice_date := parse_date dp (valueDateRaw fields "InvoiceDate")
  let currency ← coerceOptStr currency_code
  let confidence ← coerceConfidence (pyOrNoneQ (safeFloat (objGet di "confidence")))
  let field_confidence ← coerceConfMap bc.2
  pure {
    file_name := file_name, source_path := source_path, file_url := file_url,
    language := language, document_type := "invoice",
    supplier_name := supplier_name, invoice_number := invoice_number,
    invoice_date := invoice_date, currency := currency,
    subtotal := sub.1, tax_amount := tax.1, total := tot.1,
    line_items := pyListOpt items, confidence := confidence,
    bounding_boxes := pyListOpt bc.1, page_count := some page_count,
    field_confidence := pyListOpt field_confidence }

/-- `map_receipt` from `mapping.py`: note the tax fallback
(`TotalTax`, else `Tax`) that `map_invoice` does not have. -/
def map_receipt (dp : JVal → Option String) (di : JVal)
    (file_name source_path language : String) (file_url : Option String) :
    Except Unit InvoiceData := do
  let fields ← locateFields di
  let items ← itemsOf "Price" "TotalPrice" fields
  let sub ← getCurrencyValue (fieldGetD fields "Subtotal")
  let tax0 ← getCurrencyValue (fieldGetD fields "TotalTax")
  let tax_val ← taxFallback fields tax0.1
  let tot ← getCurrencyValue (fieldGetD fields "Total")
  let currency_code ← currencyCodeFallback fields tot.2 "Subtotal"
  let page_dims := get_page_dimensions di
  let page_count := get_page_count di
  let bc := receiptBoxLoop fields page_dims
  let supplier_name ← coerceOptStr (valueStringRaw fields "MerchantName")
  let invoice_date := parse_date dp (valueDateRaw fields "TransactionDate")
  let currency ← coerceOptStr currency_code
  let confidence ← coerceConfidence (pyOrNoneQ (safeFloat (objGet di "confidence")))
  let field_confidence ← coerceConfMap bc.2
  pure {
    file_name := file_name, source_path := source_path, file_url := file_url,
    language := language, document_type := "receipt",
    supplier_name := supplier_name, invoice_number := none,
    invoice_date := invoice_date, currency := currency,
    subtotal := sub.1, tax_amount := tax_val, total := tot.1,
    line_items := pyListOpt items, confidence := confidence,
    bounding_boxes := pyListOpt bc.1, page_count := some page_count,
    field_confidence := pyListOpt field_confidence }

/-- `validate_invoice_data`: the reconciliation check computes
`round(subtotal + tax, 2)` and compares it with `total`, but both
branches return `data` unchanged, so the function is the identity. -/
def validate_invoice_data (d : InvoiceData) : InvoiceData := d

/-! ## Batch driver (`src/invoice_handler/pipeline.py`) -/

/-- The filesystem oracle for `_move_to_processed`: the set of existing
paths, and whether `mkdir` / `shutil.move` succeed.  All filesystem
failures are caught by the source's `try`/`except`. -/
structure FSModel where
  files : List String
  mkdirOk : String → Bool
  moveOk : String → String → Bool

/-- `Path(p).name`. -/
def pathName (p : String) : String :=
  String.mk ((p.data.reverse.takeWhile (fun c => c ≠ '/')).reverse)

/-- `Path(p).parent` (on the slash-separated paths produced by
discovery). -/
def pathParent (p : String) : String :=
  if p.data.contains '/' then
    let rev := (p.data.reverse.dropWhile (fun c => c ≠ '/')).drop 1
    if rev.isEmpty then "/" else String.mk rev.reverse
  else "."

/-- `Path(d) / n`. -/
def pathJoin (d n : String) : String :=
  if d = "." then n else if strStarts d "/" && d.length = 1 then d ++ n else d ++ "/" ++ n

/-- `Path(n).suffix`. -/
def pathSuffix (n : String) : String :=
  let cs := n.data
  let revTail := cs.reverse.takeWhile (fun c => c ≠ '.')
  if revTail.length = cs.length then ""
  else if cs.length - revTail.length - 1 = 0 then ""
  else if revTail.isEmpty then ""
  else String.mk ('.' :: revTail.reverse)

/-- `Path(n).stem`. -/
def pathStem (n : String) : String :=
  n.take (n.length - (pathSuffix n).length)

/-- The candidate collision name `f"{stem}_{counter}{suffix}"` joined to
the processed directory. -/
def collisionName (dir stem sfx : String) (c : Nat) : String :=
  pathJoin dir (stem ++ "_" ++ toString c ++ sfx)

/-- The `while destination.exists()` collision loop.  The Python loop is
unbounded but terminates on any finite filesystem; `fs.length + 1`
distinct candidates always suffice, so the fuel bound is never
reached. -/
def freeDestGo (fs : List String) (dir stem sfx : String) : Nat → Nat → String
  | 0, c => collisionName dir stem sfx c
  | fuel + 1, c =>
    let cand := collisionName dir stem sfx c
    if fs.contains cand then freeDestGo fs dir stem sfx fuel (c + 1) else cand

/-- The local-file branch of `_move_to_processed` (everything inside the
`try` after the prefix handling); `original` is the untouched input
returned on any failure. -/
def moveLocal (fs : FSModel) (original : String) (hadP : Bool) (p : String) : String :=
  if ¬ fs.files.contains p then original
  else
    let dir := pathJoin (pathParent p) "processed"
    if ¬ fs.mkdirOk dir then original
    else
      let nm := pathName p
      let dest0 := pathJoin dir nm
      let dest :=
        if fs.files.contains dest0 then
          freeDestGo fs.files dir (pathStem nm) (pathSuffix nm) (fs.files.length + 1) 1
        else dest0
      if ¬ fs.moveOk p dest then original
      else if hadP then "file://" ++ dest else dest

/-- `_move_to_processed`: total — every failure path returns the original
path; `s3://` URIs are returned unchanged without touching the
filesystem. -/
def move_to_processed (fs : FSModel) (file_path : String) : String :=
  if strStarts file_path "file://" then moveLocal fs file_path true (file_path.drop 7)
  else if strStarts file_path "s3://" then file_path
  else moveLocal fs file_path false file_path

/-- The environment of one `process_path` call: `fetch` bundles
`_read_file_bytes` + `client.analyze_invoice` (returning the file name,
normalized source URI and parsed payload, or an exception), `dp` is the
`dateutil` parser, `quote` is `urllib.parse.quote`, and `fs` the
filesystem oracle. -/
structure PipelineEnv where
  fetch : String → Except Unit (String × String × JVal)
  dp : JVal → Option String
  quote : String → String
  fs : FSModel

/-- Python `bool(o)` for optional strings (`mapped.invoice_number or ...`). -/
def optStrTruthy : Option String → Bool
  | some s => decide (s ≠ "")
  | none => false

/-- Python `bool(o)` for optional numbers. -/
def optNumTruthy : Option ℚ → Bool
  | some q => decide (q ≠ 0)
  | none => false

/-- The document-type decision of the batch driver:
`if mapped.invoice_number or mapped.total or mapped.supplier_name`. -/
def setDocType (d : InvoiceData) : InvoiceData :=
  { d with document_type :=
      if optStrTruthy d.invoice_number || optNumTruthy d.total || optStrTruthy d.supplier_name
      then "invoice" else "other" }

/-- The degraded failure sentinel appended when a file's processing
raises (`except Exception` in `process_path`). -/
def degradedSentinel (uri : String) : InvoiceData :=
  { file_name := pathName uri, source_path := uri, file_url := none,
    language := "en", document_type := "other",
    supplier_name := none, invoice_number := none, invoice_date := none,
    currency := none, subtotal := none, tax_amount := none, total := none,
    line_items := none, confidence := some 0, bounding_boxes := none,
    page_count := none, field_confidence := none }

/-- `parsed.get("content", "")` followed by its uses (slicing, regex
search), which raise on a non-string value. -/
def contentOf (parsed : JVal) : Except Unit String :=
  match parsed with
  | .obj kvs =>
    match (alookup kvs "content").getD (.str "") with
    | .str s => .ok s
    | _ => .error ()
  | _ => .error ()

/-- The fallible part of the per-file `try` body of `process_path`: read
and analyze, detect language, map, decide the document type, validate. -/
def perFileAnalyzed (fetch : String → Except Unit (String × String × JVal))
    (dp : JVal → Option String) (quote : String → String)
    (language_detection : Bool) (uri : String) : Except Unit InvoiceData := do
  let fsu ← fetch uri
  let azure_content ← contentOf fsu.2.2
  let lang :=
    if language_detection && azure_content ≠ "" then detect_language azure_content else "en"
  let file_view_url := "/file/view?path=" ++ quote fsu.2.1
  let mapped ← map_invoice dp fsu.2.2 fsu.1 fsu.2.1 lang (some file_view_url)
  pure (validate_invoice_data (setDocType mapped))

/-- The closing, infallible steps of the `try` body: move the source file
(`_move_to_processed` never raises) and rewrite `source_path` and
`file_url` when the move actually happened. -/
def finalizeRecord (fs : FSModel) (quote : String → String) (uri : String)
    (validated : InvoiceData) : InvoiceData :=
  let new_uri := move_to_processed fs uri
  if new_uri ≠ uri then
    { validated with source_path := new_uri,
                     file_url := some ("/file/view?path=" ++ quote new_uri) }
  else validated

/-- The body of the per-file `try` block of `process_path`. -/
def perFilePipeline (env : PipelineEnv) (language_detection : Bool) (uri : String) :
    Except Unit InvoiceData :=
  (perFileAnalyzed env.fetch env.dp env.quote language_detection uri).map
    (finalizeRecord env.fs env.quote uri)

/-- One iteration of the `for uri in uris_to_process` loop: the `try`
body, with any exception converted to the degraded sentinel. -/
def processOne (env : PipelineEnv) (language_detection : Bool) (uri : String) : InvoiceData :=
  match perFilePipeline env language_detection uri with
  | .ok d => d
  | .error _ => degradedSentinel uri

/-- The window slice `uris[starting_point:end_point]` with
`end_point = min(starting_point + bulk_size, total_files)`. -/
def windowAt {α : Type} (files : List α) (sp W : Nat) : List α :=
  (files.take (min (sp + W) files.length)).drop sp

/-- `process_path`: discovery is a collaborator, so the discovered list
`uris` is passed in.  Returns `(results, total_files, files_handled)`. -/
def process_path (env : PipelineEnv) (language_detection : Bool) (uris : List String)
    (starting_point bulk_size : Nat) : List InvoiceData × Nat × Nat :=
  let toProcess := windowAt uris starting_point bulk_size
  (toProcess.map (processOne env language_detection), uris.length, toProcess.length)

/-! ## The resumable-batch cursor model (claim C1)

Abstract dynamics of repeated `process_path` calls on a local directory
when every file in the window is processed successfully and moved to the
`processed` subdirectory: a later call re-discovers exactly the files
outside the earlier windows (non-recursive discovery does not descend
into `processed/`). -/

/-- The list re-discovered after one call processed the window
`[sp, min(sp+W, len))` and moved those files away. -/
def afterMoves {α : Type} (files : List α) (sp W : Nat) : List α :=
  files.take sp ++ files.drop (min (sp + W) files.length)

/-- Remaining files after `k` calls of the protocol the spec describes:
call `k` uses `starting_point = k * W` on the then-remaining list. -/
def specCursorRemaining {α : Type} (files : List α) (W : Nat) : Nat → List α
  | 0 => files
  | k + 1 => afterMoves (specCursorRemaining files W k) (k * W) W

/-- Total `files_handled` over the first `k` calls of that protocol. -/
def specCursorHandled {α : Type} (files : List α) (W : Nat) : Nat → Nat
  | 0 => 0
  | k + 1 =>
    specCursorHandled files W k +
      (windowAt (specCursorRemaining files W k) (k * W) W).length

/-- Remaining files after `k` calls that all use `starting_point = 0` on
the then-remaining list. -/
def zeroCursorRemaining {α : Type} (files : List α) (W : Nat) : Nat → List α
  | 0 => files
  | k + 1 => afterMoves (zeroCursorRemaining files W k) 0 W

/-- Concatenation, in order, of the windows processed by the first `k`
zero-cursor calls. -/
def zeroCursorWindows {α : Type} (files : List α) (W : Nat) : Nat → List α
  | 0 => []
  | k + 1 => zeroCursorWindows files W k ++ windowAt (zeroCursorRemaining files W k) 0 W

/-- Total `files_handled` over the first `k` zero-cursor calls. -/
def zeroCursorHandled {α : Type} (files : List α) (W : Nat) : Nat → Nat
  | 0 => 0
  | k + 1 =>
    zeroCursorHandled files W k + (windowAt (zeroCursorRemaining files W k) 0 W).length

/-- `Except.isOk`. -/
def exceptIsOk {ε α : Type} : Except ε α → Bool
  | .ok _ => true
  | .error _ => false

/-! ## Declarative companions used to state the claims -/

/-- Python-style `a or b` on options (first one that is `some` wins). -/
def oOr {α : Type} (a b : Option α) : Option α :=
  match a with
  | some x => some x
  | none => b

/-- The first bounding region of a field
(`field.get("boundingRegions", [])[0]` when it exists). -/
def firstRegionOf (field : JVal) : Option JVal :=
  match field with
  | .obj fkv =>
    match (alookup fkv "boundingRegions").getD (.arr []) with
    | .arr (r :: _) => some r
    | _ => none
  | _ => none

/-- All polygon entries are numbers, pairwise bounded by the page
dimensions: x-coordinates by `pw`, y-coordinates by `ph`. -/
def polyBounded (pw ph : ℚ) : List JVal → Bool
  | [] => true
  | .num a :: .num b :: rest =>
    decide (0 ≤ a) && decide (a ≤ pw) && decide (0 ≤ b) && decide (b ≤ ph) &&
      polyBounded pw ph rest
  | _ => false

/-- Modelled from the spec: the bounding boxes successfully extracted,
in mapping order, for provider fields that map to canonical name `c`
and are present in the field bag. -/
def boxHits (fields : List (String × JVal)) (dims : PageDims) :
    List (String × String) → String → List BoundingBox
  | [], _ => []
  | (az, ourf) :: rest, c =>
    (if ourf = c ∧ (alookup fields az).isSome then
       (extract_bounding_box (fieldGetD fields az) dims).toList
     else []) ++ boxHits fields dims rest c

/-- Modelled from the spec: the raw confidences successfully extracted,
in mapping order, for provider fields mapping to canonical name `c`. -/
def confHits (fields : List (String × JVal)) :
    List (String × String) → String → List JVal
  | [], _ => []
  | (az, ourf) :: rest, c =>
    (if ourf = c ∧ (alookup fields az).isSome then
       (extract_field_confidence (fieldGetD fields az)).toList
     else []) ++ confHits fields rest c

/-- Modelled from the spec: "the first provider field encountered in the
fixed iteration order wins". -/
def specFirstBox (fields : List (String × JVal)) (dims : PageDims)
    (m : List (String × String)) (c : String) : Option BoundingBox :=
  (boxHits fields dims m c).head?

/-- The box from the last successful provider field (what the receipt
loop actually records). -/
def specLastBox (fields : List (String × JVal)) (dims : PageDims)
    (m : List (String × String)) (c : String) : Option BoundingBox :=
  (boxHits fields dims m c).getLast?

/-- Modelled from the spec: first-wins for per-field confidences. -/
def specFirstConf (fields : List (String × JVal))
    (m : List (String × String)) (c : String) : Option JVal :=
  (confHits fields m c).head?

/-- The spec-level truthiness condition the driver actually tests: one of
`invoice_number`, `total`, `supplier_name` is non-null AND non-empty /
non-zero. -/
def hasInvoiceSignal (d : InvoiceData) : Prop :=
  (∃ s, d.invoice_number = some s ∧ s ≠ "") ∨ (∃ q, d.total = some q ∧ q ≠ 0) ∨
  (∃ s, d.supplier_name = some s ∧ s ≠ "")

/-! ## Concrete fixtures used in counterexamples and witnesses -/

/-- A `dateutil` stand-in that parses nothing. -/
def dp0 : JVal → Option String := fun _ => none

/-- An empty filesystem on which every operation succeeds. -/
def fsEmpty : FSModel := ⟨[], fun _ => true, fun _ _ => true⟩

/-- An environment whose fetch always raises. -/
def env0 : PipelineEnv := ⟨fun _ => .error (), dp0, id, fsEmpty⟩

/-- A payload whose invoice total is present with amount 0. -/
def p6 : JVal := .obj [("content", .str "x"),
  ("fields", .obj [("InvoiceTotal",
    .obj [("valueCurrency", .obj [("amount", .num 0), ("currencyCode", .str "USD")])])])]

/-- An environment that successfully fetches `p6` for every URI. -/
def env6 : PipelineEnv := ⟨fun u => .ok ("f.pdf", u, p6), dp0, id, fsEmpty⟩

/-- A field bag with a generic `Tax` amount and no `TotalTax`. -/
def fields7 : List (String × JVal) :=
  [("Tax", .obj [("valueCurrency", .obj [("amount", .num 17), ("currencyCode", .str "USD")])])]

/-- A payload carrying only `fields7`. -/
def di7 : JVal := .obj [("fields", .obj fields7)]

/-- The record `map_invoice` produces from `di7`. -/
def invoiceD7 : InvoiceData :=
  { file_name := "f", source_path := "s", file_url := none, language := "en",
    document_type := "invoice", supplier_name := none, invoice_number := none,
    invoice_date := none, currency := none, subtotal := none, tax_amount := none,
    total := none, line_items := none, confidence := none, bounding_boxes := none,
    page_count := some 1, field_confidence := none }

/-- The record `map_receipt` produces from `di7`. -/
def receiptD7 : InvoiceData :=
  { file_name := "f", source_path := "s", file_url := none, language := "en",
    document_type := "receipt", supplier_name := none, invoice_number := none,
    invoice_date := none, currency := none, subtotal := none, tax_amount := some 17,
    total := none, line_items := none, confidence := none, bounding_boxes := none,
    page_count := some 1, field_confidence := none }

/-- A provider field carrying one bounding region on page 1 with the
given polygon, a currency value and a confidence. -/
def bboxField (ps : List ℚ) : JVal :=
  .obj [("boundingRegions",
          .arr [.obj [("polygon", .arr (ps.map JVal.num)), ("pageNumber", .num 1)]]),
        ("valueCurrency", .obj [("amount", .num 5), ("currencyCode", .str "USD")]),
        ("confidence", .num 1)]

/-- A field bag where `TotalTax` and `Tax` (both mapping to the canonical
`tax_amount`) each carry a bounding region with distinct polygons. -/
def fields8 : List (String × JVal) :=
  [("TotalTax", bboxField [0, 0, 1, 0, 1, 1, 0, 1]),
   ("Tax", bboxField [0, 0, 2, 0, 2, 2, 0, 2])]

/-- Page dimensions `1 × 1` for page 1. -/
def dims1 : PageDims := [(.num 1, (.num 1, .num 1))]

/-- A field with a bounding region whose polygon is in raw pixel
coordinates. -/
def field3 : JVal := bboxField [100, 50, 200, 50, 200, 150, 100, 150]

/-- A payload with `field3` and NO page metadata at all. -/
def di3 : JVal := .obj [("fields", .obj [("InvoiceTotal", field3)])]

/-- A filesystem where the source exists but `mkdir` fails. -/
def fs10 : FSModel := ⟨["/d/a.pdf"], fun _ => false, fun _ _ => true⟩

/-- A receipt payload carrying `fields8` with genuine 1 × 1 page
dimensions for page 1. -/
def di8 : JVal := .obj [("fields", .obj fields8),
  ("pages", .arr [.obj [("pageNumber", .num 1), ("width", .num 1), ("height", .num 1)]])]

/-- An 8-coordinate polygon bounded by a 1 × 1 page. -/
def poly3w : List JVal := [.num 0, .num 0, .num 1, .num 0, .num 1, .num 1, .num 0, .num 1]

/-! ## Generic lemmas -/

theorem exbind_ok {ε α β : Type} {x : Except ε α} {f : α → Except ε β} {b : β} :
    (x >>= f) = .ok b ↔ ∃ a, x = .ok a ∧ f a = .ok b := by
  cases x <;> simp [Bind.bind, Except.bind]

theorem expure_ok {ε α : Type} {a b : α} :
    (pure a : Except ε α) = .ok b ↔ a = b := by
  simp [pure, Except.pure]

theorem oOr_assoc {α : Type} (a b c : Option α) : oOr (oOr a b) c = oOr a (oOr b c) := by
  cases a <;> rfl

theorem oOr_some_left {α : Type} (a : α) (b : Option α) : oOr (some a) b = some a := rfl

theorem oOr_none_right {α : Type} (a : Option α) : oOr a none = a := by
  cases a <;> rfl

theorem alookup_append {α : Type} (l1 l2 : List (String × α)) (c : String) :
    alookup (l1 ++ l2) c = oOr (alookup l1 c) (alookup l2 c) := by
  induction l1 with
  | nil => rfl
  | cons p rest ih =>
    obtain ⟨k1, v⟩ := p
    by_cases hk : k1 = c
    · simp [alookup, hk, oOr]
    · simp [alookup, hk, ih]

theorem alookup_setKeyS {α : Type} (l : List (String × α)) (k : String) (v : α) (c : String) :
    alookup (setKeyS l k v) c = if k = c then some v else alookup l c := by
  induction l with
  | nil => simp [setKeyS, alookup]
  | cons p rest ih =>
    obtain ⟨k1, v1⟩ := p
    by_cases h1 : k1 = k
    · subst h1
      by_cases hc : k1 = c <;> simp [setKeyS, alookup, hc]
    · by_cases hc : k1 = c
      · subst hc
        have : ¬ k = k1 := fun h => h1 h.symm
        simp [setKeyS, h1, alookup, this]
      · simp [setKeyS, h1, alookup, hc, ih]

theorem getLast?_cons_oOr {α : Type} (a : α) (l : List α) :
    (a :: l).getLast? = oOr l.getLast? (some a) := by
  induction l generalizing a with
  | nil => rfl
  | cons b t ih =>
    rw [List.getLast?_cons_cons, ih b, oOr_assoc]
    rfl

/-! ## Claim C1: the resumable-batch cursor -/

theorem drop_min_length {α : Type} (l : List α) (n : Nat) :
    l.drop (min n l.length) = l.drop n := by
  rcases le_or_lt n l.length with h | h
  · rw [min_eq_left h]
  · rw [min_eq_right h.le, List.drop_of_length_le le_rfl, List.drop_of_length_le h.le]

theorem take_min_length {α : Type} (l : List α) (n : Nat) :
    l.take (min n l.length) = l.take n := by
  rcases le_or_lt n l.length with h | h
  · rw [min_eq_left h]
  · rw [min_eq_right h.le, List.take_of_length_le le_rfl, List.take_of_length_le h.le]

theorem windowAt_zero {α : Type} (l : List α) (W : Nat) : windowAt l 0 W = l.take W := by
  simp [windowAt, take_min_length]

theorem afterMoves_zero {α : Type} (l : List α) (W : Nat) : afterMoves l 0 W = l.drop W := by
  simp [afterMoves, drop_min_length]

theorem zeroCursorRemaining_eq {α : Type} (l : List α) (W : Nat) :
    ∀ k, zeroCursorRemaining l W k = l.drop (W * k) := by
  intro k
  induction k with
  | zero => simp [zeroCursorRemaining]
  | succ k ih =>
    rw [zeroCursorRemaining, ih, afterMoves_zero, List.drop_drop, Nat.mul_succ]

theorem zeroCursorWindows_eq {α : Type} (l : List α) (W : Nat) :
    ∀ k, zeroCursorWindows l W k = l.take (W * k) := by
  intro k
  induction k with
  | zero => simp [zeroCursorWindows]
  | succ k ih =>
    rw [zeroCursorWindows, ih, zeroCursorRemaining_eq, windowAt_zero, Nat.mul_succ,
      List.take_add]

theorem zeroCursorHandled_eq {α : Type} (l : List α) (W : Nat) :
    ∀ k, zeroCursorHandled l W k = (l.take (W * k)).length := by
  intro k
  induction k with
  | zero => simp [zeroCursorHandled]
  | succ k ih =>
    rw [zeroCursorHandled, ih, zeroCursorRemaining_eq, windowAt_zero]
    rw [Nat.mul_succ, List.take_add, List.length_append]

/-- C1 (corrected): when every call uses `starting_point = 0` — which is
what re-discovery after the moves requires — `⌈N/W⌉`-many calls (any `k`
with `N ≤ W·k`) process every file exactly once, in order, and the
summed `files_handled` equals `N`. -/
theorem c1_theorem : ∀ (files : List Nat) (W k : Nat), 1 ≤ W → files.length ≤ W * k →
    zeroCursorWindows files W k = files ∧
    zeroCursorHandled files W k = files.length ∧
    zeroCursorRemaining files W k = [] := by
  intro files W k _ hlen
  refine ⟨?_, ?_, ?_⟩
  · rw [zeroCursorWindows_eq, List.take_of_length_le hlen]
  · rw [zeroCursorHandled_eq, List.take_of_length_le hlen]
  · rw [zeroCursorRemaining_eq, List.drop_of_length_le hlen]

/-- C1 counterexample: two files, window 1.  The claimed protocol
(`starting_point = 0, W, 2W, …` over the re-discovered remainders)
handles only one of the two files; the second file survives every call
and the summed `files_handled` is 1, not 2. -/
theorem c1_counterexample :
    specCursorHandled [0, 1] 1 2 = 1 ∧ specCursorRemaining [0, 1] 1 2 = [1] ∧
    specCursorHandled [0, 1] 1 5 = 1 ∧ specCursorRemaining [0, 1] 1 5 = [1] ∧
    (1 : Nat) ≠ 2 := by
  decide

theorem c1_witness :
    1 ≤ 2 ∧ ([0, 1, 2] : List Nat).length ≤ 2 * 2 ∧
    (zeroCursorWindows [0, 1, 2] 2 2 = [0, 1, 2] ∧
     zeroCursorHandled [0, 1, 2] 2 2 = 3 ∧
     zeroCursorRemaining [0, 1, 2] 2 2 = []) := by
  refine ⟨by decide, by decide, ?_⟩
  have h := c1_theorem [0, 1, 2] 2 2 (by decide) (by decide)
  simpa using h

/-! ## Claim C9: the classifier example -/

theorem classify_example_eval :
    classify_text "Invoice Invoice Total due" = ("invoice", 3/5) := by
  have h1 : countHits RECEIPT_KEYWORDS (strLower "Invoice Invoice Total due") = 0 := by decide
  have h2 : countHits INVOICE_KEYWORDS (strLower "Invoice Invoice Total due") = 1 := by decide
  simp only [classify_text, h1, h2]
  rw [if_neg (by decide : ¬("Invoice Invoice Total due" = ""))]
  norm_num

/-- C9 counterexample: the code counts distinct keywords present, not
occurrences, so "Invoice Invoice Total due" has one invoice hit and the
score is 0.6, not the claimed `min(1.0, 0.4 + 0.2 × 2) = 0.8`. -/
theorem c9_counterexample :
    classify_text "Invoice Invoice Total due" = ("invoice", 3/5) ∧ ((3 : ℚ)/5) ≠ 4/5 := by
  exact ⟨classify_example_eval, by norm_num⟩

/-- C9 (corrected): `classify` on "Invoice Invoice Total due" returns
label `invoice` with score `min(1.0, 0.4 + 0.2 × 1) = 0.6`: the keyword
counter counts each keyword at most once regardless of repetitions, so
the duplicated word yields one invoice hit (and zero receipt hits). -/
theorem c9_theorem :
    classify_text "Invoice Invoice Total due" = ("invoice", 3/5) ∧
    countHits INVOICE_KEYWORDS (strLower "Invoice Invoice Total due") = 1 ∧
    countHits RECEIPT_KEYWORDS (strLower "Invoice Invoice Total due") = 0 ∧
    ((3 : ℚ)/5) = min 1 (2/5 + 1/5 * (1 : ℚ)) := by
  refine ⟨classify_example_eval, by decide, by decide, ?_⟩
  rw [min_eq_right (by norm_num)]
  norm_num

/-! ## Claim C4: the submit retry/backoff loop -/

theorem post_analyze_go_allRateLimited (resp : Nat → SubmitResp) (m : Nat) :
    ∀ fuel a, 1 ≤ fuel → a + fuel = m →
      (∀ i, a ≤ i → i < m → (resp i).status = 429) →
      post_analyze_go resp m a fuel = (.err 429 (m - 1), backoffSleeps resp a (fuel - 1)) := by
  intro fuel
  induction fuel with
  | zero => intro a h; omega
  | succ f ih =>
    intro a _ hm h429
    have hs : (resp a).status = 429 := h429 a le_rfl (by omega)
    cases f with
    | zero =>
      have ha : ¬ a < m - 1 := by omega
      have hval : a = m - 1 := by omega
      subst hval
      simp [post_analyze_go, hs, ha, backoffSleeps]
    | succ f1 =>
      have ha : a < m - 1 := by omega
      have hrec := ih (a + 1) (by omega) (by omega)
        (fun i hi1 hi2 => h429 i (by omega) hi2)
      rw [post_analyze_go]
      simp only [hs, if_true]
      rw [if_pos ha, hrec]
      simp [backoffSleeps]

theorem post_analyze_go_success (resp : Nat → SubmitResp) (m : Nat) :
    ∀ k fuel a, a + fuel = m → k < fuel →
      (∀ i, a ≤ i → i < a + k → (resp i).status = 429) →
      (resp (a + k)).status = 200 →
      post_analyze_go resp m a fuel = (.ok (a + k), backoffSleeps resp a k) := by
  intro k
  induction k with
  | zero =>
    intro fuel a hm hk h429 h200
    cases fuel with
    | zero => omega
    | succ f =>
      simp only [Nat.add_zero] at h200
      simp [post_analyze_go, h200, backoffSleeps]
  | succ k ih =>
    intro fuel a hm hk h429 h200
    have hs : (resp a).status = 429 := h429 a le_rfl (by omega)
    cases fuel with
    | zero => omega
    | succ f =>
      have ha : a < m - 1 := by omega
      have hrec := ih f (a + 1) (by omega) (by omega)
        (fun i hi1 hi2 => h429 i (by omega) (by omega))
        (by have : a + 1 + k = a + (k + 1) := by omega
            rw [this]; exact h200)
      rw [post_analyze_go]
      simp only [hs, if_true]
      rw [if_pos ha, hrec]
      have heq : a + 1 + k = a + (k + 1) := by omega
      simp [backoffSleeps, heq]

/-- C4 (confirmed): a non-2xx submit response other than 429 raises
immediately with no retry and no sleep; 429 responses are retried up to
`max_retries` attempts, sleeping the provider's `Retry-After` when
present, else `2 ^ attemptIndex` seconds; when every attempt is
rate-limited the loop raises the last encountered (429) error after the
final attempt. -/
theorem c4_theorem (resp : Nat → SubmitResp) (m : Nat) :
    (1 ≤ m → ¬(200 ≤ (resp 0).status ∧ (resp 0).status ≤ 299) → (resp 0).status ≠ 429 →
      post_analyze resp m = (.err ((resp 0).status) 0, [])) ∧
    (1 ≤ m → (∀ i, i < m → (resp i).status = 429) →
      post_analyze resp m = (.err 429 (m - 1), backoffSleeps resp 0 (m - 1))) ∧
    (∀ k, k < m → (∀ i, i < k → (resp i).status = 429) → (resp k).status = 200 →
      post_analyze resp m = (.ok k, backoffSleeps resp 0 k)) := by
  refine ⟨?_, ?_, ?_⟩
  · intro hm h2xx h429
    cases m with
    | zero => omega
    | succ f =>
      simp only [post_analyze]
      rw [post_analyze_go, if_neg h2xx, if_neg h429]
  · intro hm h429
    exact post_analyze_go_allRateLimited resp m m 0 hm (by omega) (fun i _ hi => h429 i hi)
  · intro k hk h429 h200
    have := post_analyze_go_success resp m k m 0 (by omega) hk
      (fun i _ hi => h429 i (by omega)) (by simpa using h200)
    simpa using this

theorem c4_witness :
    post_analyze (fun i => ⟨429, some (i + 5)⟩) 3 = (.err 429 2, [5, 6]) ∧
    post_analyze (fun _ => ⟨500, none⟩) 2 = (.err 500 0, []) ∧
    post_analyze (fun i => ⟨if i < 2 then 429 else 200, none⟩) 4 = (.ok 2, [1, 2]) := by
  refine ⟨?_, ?_, ?_⟩
  · have h := (c4_theorem (fun i => ⟨429, some (i + 5)⟩) 3).2.1 (by omega)
      (fun i _ => rfl)
    simpa [backoffSleeps] using h
  · have h := (c4_theorem (fun _ => ⟨500, none⟩) 2).1 (by omega) (by decide) (by decide)
    simpa using h
  · have h := (c4_theorem (fun i => ⟨if i < 2 then 429 else 200, none⟩) 4).2.2 2 (by omega)
      (fun i hi => by simp [hi]) (by norm_num)
    simpa [backoffSleeps] using h

/-! ## Claim C5: the poll loop -/

theorem poll_go_timeout (bodies : Nat → List (String × JVal)) :
    ∀ fuel k, (∀ j, k ≤ j → j < k + fuel → isTerminalStatus (statusOfBody (bodies j)) = false) →
      poll_operation_go (fun i => .body (.obj (bodies i))) k fuel =
        (.timeout, List.replicate fuel 1) := by
  intro fuel
  induction fuel with
  | zero => intro k _; rfl
  | succ f ih =>
    intro k hnt
    have h0 : isTerminalStatus (statusOfBody (bodies k)) = false := hnt k le_rfl (by omega)
    have hrec := ih (k + 1) (fun j hj1 hj2 => hnt j (by omega) (by omega))
    simp [poll_operation_go, h0, hrec, List.replicate_succ]

theorem poll_go_firstTerminal (bodies : Nat → List (String × JVal)) :
    ∀ k0 fuel k, k0 < fuel →
      (∀ j, k ≤ j → j < k + k0 → isTerminalStatus (statusOfBody (bodies j)) = false) →
      isTerminalStatus (statusOfBody (bodies (k + k0))) = true →
      poll_operation_go (fun i => .body (.obj (bodies i))) k fuel =
        (.ok (k + k0) (payloadOf (bodies (k + k0))), List.replicate k0 1) := by
  intro k0
  induction k0 with
  | zero =>
    intro fuel k hk _ ht
    cases fuel with
    | zero => omega
    | succ f =>
      simp only [Nat.add_zero] at ht
      simp [poll_operation_go, ht]
  | succ k0 ih =>
    intro fuel k hk hnt ht
    cases fuel with
    | zero => omega
    | succ f =>
      have h0 : isTerminalStatus (statusOfBody (bodies k)) = false := hnt k le_rfl (by omega)
      have heq : k + 1 + k0 = k + (k0 + 1) := by omega
      have hrec := ih f (k + 1) (by omega)
        (fun j hj1 hj2 => hnt j (by omega) (by omega))
        (by rw [heq]; exact ht)
      rw [heq] at hrec
      simp [poll_operation_go, h0, hrec, List.replicate_succ]

/-- C5 (confirmed): with every poll answered by a parsed JSON object,
the gateway polls at most 60 times at a 1-second interval; the first
poll whose status is `succeeded`, `failed` or `partiallySucceeded`
terminates polling and returns `payloadOf` that body — an extraction
that never reads the status, so all three terminal states return the
same payload (the `analyzeResult` member whenever it is truthy); 60
polls without a terminal status yield the timeout failure. -/
theorem c5_theorem (bodies : Nat → List (String × JVal)) :
    (∀ k0, k0 < 60 → isTerminalStatus (statusOfBody (bodies k0)) = true →
      (∀ j, j < k0 → isTerminalStatus (statusOfBody (bodies j)) = false) →
      poll_operation (fun i => .body (.obj (bodies i))) =
        (.ok k0 (payloadOf (bodies k0)), List.replicate k0 1)) ∧
    ((∀ j, j < 60 → isTerminalStatus (statusOfBody (bodies j)) = false) →
      poll_operation (fun i => .body (.obj (bodies i))) =
        (.timeout, List.replicate 60 1)) ∧
    (∀ kvs r, alookup kvs "analyzeResult" = some r → jTruthy r = true →
      payloadOf kvs = r) := by
  refine ⟨?_, ?_, ?_⟩
  · intro k0 hk ht hnt
    have := poll_go_firstTerminal bodies k0 60 0 hk (fun j _ hj => hnt j (by omega))
      (by simpa using ht)
    simpa [poll_operation] using this
  · intro hnt
    exact poll_go_timeout bodies 60 0 (fun j _ hj => hnt j (by omega))
  · intro kvs r hr htr
    simp [payloadOf, hr, pyOrJ, htr]

theorem c5_witness :
    poll_operation (fun i => .body (.obj (if i < 2 then [("status", .str "running")]
      else [("status", .str "succeeded"), ("analyzeResult", .str "payload")]))) =
      (.ok 2 (.str "payload"), List.replicate 2 1) ∧
    poll_operation (fun _ => .body (.obj [("status", .str "running")])) =
      (.timeout, List.replicate 60 1) := by
  constructor
  · have h := (c5_theorem (fun i => if i < 2 then [("status", .str "running")]
      else [("status", .str "succeeded"), ("analyzeResult", .str "payload")])).1 2
      (by omega) (by decide) (fun j hj => by interval_cases j <;> decide)
    simpa using h
  · have h := (c5_theorem (fun _ => [("status", .str "running")])).2.1 (fun j _ => by decide)
    simpa using h

/-! ## Claim C2: one record per window file, degraded sentinel on failure -/

/-- C2 (confirmed): the batch driver appends exactly one record per file
of the computed window (`results.length = files_handled`, and result `i`
is the processing of window file `i`, independent of the other files);
when a file's processing raises, its record is the degraded sentinel —
document_type "other", confidence 0.0 and all extracted fields null —
and the batch function itself is total. -/
theorem c2_theorem (env : PipelineEnv) (ld : Bool) (uris : List String) (sp W : Nat) :
    (process_path env ld uris sp W).1.length = (process_path env ld uris sp W).2.2 ∧
    (∀ i : Nat, (process_path env ld uris sp W).1[i]? =
      ((windowAt uris sp W)[i]?).map (processOne env ld)) ∧
    (∀ uri e, perFilePipeline env ld uri = .error e →
      processOne env ld uri = degradedSentinel uri) ∧
    (∀ uri, (degradedSentinel uri).document_type = "other" ∧
      (degradedSentinel uri).confidence = some 0 ∧
      (degradedSentinel uri).supplier_name = none ∧
      (degradedSentinel uri).invoice_number = none ∧
      (degradedSentinel uri).invoice_date = none ∧
      (degradedSentinel uri).currency = none ∧
      (degradedSentinel uri).subtotal = none ∧
      (degradedSentinel uri).tax_amount = none ∧
      (degradedSentinel uri).total = none ∧
      (degradedSentinel uri).line_items = none) := by
  refine ⟨?_, ?_, ?_, ?_⟩
  · simp [process_path]
  · intro i
    simp [process_path, List.getElem?_map]
  · intro uri e he
    simp [processOne, he]
  · intro uri
    exact ⟨rfl, rfl, rfl, rfl, rfl, rfl, rfl, rfl, rfl, rfl⟩

theorem c2_witness :
    perFilePipeline env0 true "a.pdf" = .error () ∧
    processOne env0 true "a.pdf" = degradedSentinel "a.pdf" ∧
    (process_path env0 true ["a.pdf"] 0 5).1.length =
      (process_path env0 true ["a.pdf"] 0 5).2.2 := by
  refine ⟨rfl, ?_, ?_⟩
  · exact (c2_theorem env0 true ["a.pdf"] 0 5).2.2.1 "a.pdf" () rfl
  · exact (c2_theorem env0 true ["a.pdf"] 0 5).1

/-! ## Claim C6: the document-type decision -/

theorem optStrTruthy_iff (o : Option String) :
    optStrTruthy o = true ↔ ∃ s, o = some s ∧ s ≠ "" := by
  cases o <;> simp [optStrTruthy]

theorem optNumTruthy_iff (o : Option ℚ) :
    optNumTruthy o = true ↔ ∃ q, o = some q ∧ q ≠ 0 := by
  cases o <;> simp [optNumTruthy]

theorem setDocType_char (d : InvoiceData) :
    ((setDocType d).document_type = "invoice" ↔ hasInvoiceSignal d) ∧
    ((setDocType d).document_type = "other" ↔ ¬ hasInvoiceSignal d) := by
  have hb : (optStrTruthy d.invoice_number || optNumTruthy d.total ||
      optStrTruthy d.supplier_name) = true ↔ hasInvoiceSignal d := by
    simp [optStrTruthy_iff, optNumTruthy_iff, hasInvoiceSignal, or_assoc]
  by_cases h : (optStrTruthy d.invoice_number || optNumTruthy d.total ||
      optStrTruthy d.supplier_name) = true
  · simp [setDocType, h, hb.mp h]
  · have h2 : (optStrTruthy d.invoice_number || optNumTruthy d.total ||
        optStrTruthy d.supplier_name) = false := by
      simpa using h
    simp only [setDocType, h2, Bool.false_eq_true, if_false]
    constructor
    · simp
      exact fun hsig => h (hb.mpr hsig)
    · simp
      exact fun hsig => h (hb.mpr hsig)

theorem exmap_ok {ε α β : Type} {x : Except ε α} {f : α → β} {b : β} :
    x.map f = .ok b ↔ ∃ a, x = .ok a ∧ f a = b := by
  cases x <;> simp [Except.map]

theorem finalizeRecord_fields (fs : FSModel) (quote : String → String) (uri : String)
    (v : InvoiceData) :
    (finalizeRecord fs quote uri v).document_type = v.document_type ∧
    (finalizeRecord fs quote uri v).invoice_number = v.invoice_number ∧
    (finalizeRecord fs quote uri v).total = v.total ∧
    (finalizeRecord fs quote uri v).supplier_name = v.supplier_name := by
  simp only [finalizeRecord]
  split <;> simp

/-- C6 (corrected): the driver's decision is by Python truthiness, not
nullability: `document_type` is "invoice" iff one of `invoice_number`,
`total`, `supplier_name` is non-null AND non-empty (strings) / non-zero
(`total`), and "other" otherwise; this characterization also holds of
the record the per-file pipeline actually emits. -/
theorem c6_theorem :
    (∀ d : InvoiceData,
      ((setDocType d).document_type = "invoice" ↔ hasInvoiceSignal d) ∧
      ((setDocType d).document_type = "other" ↔ ¬ hasInvoiceSignal d)) ∧
    (∀ env ld uri d, perFilePipeline env ld uri = .ok d →
      (d.document_type = "invoice" ↔ hasInvoiceSignal d) ∧
      (d.document_type = "invoice" ∨ d.document_type = "other")) := by
  refine ⟨setDocType_char, ?_⟩
  intro env ld uri d h
  rw [perFilePipeline, exmap_ok] at h
  obtain ⟨v, hv, hd⟩ := h
  rw [perFileAnalyzed] at hv
  obtain ⟨fsu, hfsu, hv⟩ := exbind_ok.mp hv
  obtain ⟨content, hc, hv⟩ := exbind_ok.mp hv
  obtain ⟨mapped, hm, hv⟩ := exbind_ok.mp hv
  rw [expure_ok] at hv
  subst hv
  subst hd
  simp only [validate_invoice_data]
  obtain ⟨hdt, hin, hto, hsu⟩ :=
    finalizeRecord_fields env.fs env.quote uri (setDocType mapped)
  have hsig : hasInvoiceSignal (finalizeRecord env.fs env.quote uri (setDocType mapped)) ↔
      hasInvoiceSignal (setDocType mapped) := by
    simp only [hasInvoiceSignal, hin, hto, hsu]
  have hsig2 : hasInvoiceSignal (setDocType mapped) ↔ hasInvoiceSignal mapped := by
    simp [hasInvoiceSignal, setDocType]
  constructor
  · rw [hdt, hsig, hsig2]
    exact (setDocType_char mapped).1
  · rw [hdt]
    by_cases hs : hasInvoiceSignal mapped
    · exact Or.inl (((setDocType_char mapped).1).mpr hs)
    · exact Or.inr (((setDocType_char mapped).2).mpr hs)

/-- C6 counterexample: a payload whose invoice total maps to the non-null
amount 0 is still classified "other" (Python truthiness), refuting the
"non-null" reading of the decision. -/
theorem c6_counterexample :
    (processOne env6 true "f.pdf").total = some 0 ∧
    (processOne env6 true "f.pdf").document_type = "other" ∧
    ("other" : String) ≠ "invoice" := by
  exact ⟨rfl, rfl, by decide⟩

theorem c6_witness :
    perFilePipeline env6 true "f.pdf" = .ok (processOne env6 true "f.pdf") ∧
    ((processOne env6 true "f.pdf").document_type = "invoice" ∨
     (processOne env6 true "f.pdf").document_type = "other") := by
  have hpf : perFilePipeline env6 true "f.pdf" = .ok (processOne env6 true "f.pdf") := by rfl
  exact ⟨hpf, (c6_theorem.2 env6 true "f.pdf" _ hpf).2⟩

/-! ## Claim C10: totality of the file-lifecycle move -/

theorem s3_not_file (uri : String) (h : strStarts uri "s3://" = true) :
    strStarts uri "file://" = false := by
  unfold strStarts at h ⊢
  rw [show ("s3://".data) = ['s', '3', ':', '/', '/'] from rfl] at h
  rw [show ("file://".data) = ['f', 'i', 'l', 'e', ':', '/', '/'] from rfl]
  cases hd : uri.data with
  | nil =>
    rw [hd] at h
    simp [leadsWith] at h
  | cons c cs =>
    rw [hd] at h
    simp only [leadsWith, Bool.and_eq_true, beq_iff_eq] at h
    obtain ⟨hc, -⟩ := h
    subst hc
    simp [leadsWith, show (('f' == 's') : Bool) = false from rfl]

/-- C10 (confirmed): `_move_to_processed` is total.  `s3://` URIs are
returned unchanged; a missing source, a failed directory creation and a
failed move each return the original path; and whether the per-file
pipeline succeeds is independent of the filesystem, so a failed move can
never turn a successfully processed file's record into the degraded
sentinel. -/
theorem c10_theorem :
    (∀ fs uri, strStarts uri "s3://" = true → move_to_processed fs uri = uri) ∧
    (∀ fs uri, strStarts uri "s3://" = false →
      fs.files.contains (if strStarts uri "file://" then uri.drop 7 else uri) = false →
      move_to_processed fs uri = uri) ∧
    (∀ fs uri, strStarts uri "s3://" = false →
      fs.mkdirOk (pathJoin (pathParent
        (if strStarts uri "file://" then uri.drop 7 else uri)) "processed") = false →
      move_to_processed fs uri = uri) ∧
    (∀ fs uri, strStarts uri "s3://" = false →
      (∀ d, fs.moveOk (if strStarts uri "file://" then uri.drop 7 else uri) d = false) →
      move_to_processed fs uri = uri) ∧
    (∀ env fs2 ld uri, exceptIsOk (perFilePipeline env ld uri) =
      exceptIsOk (perFilePipeline { env with fs := fs2 } ld uri)) := by
  refine ⟨?_, ?_, ?_, ?_, ?_⟩
  · intro fs uri h
    rw [move_to_processed, if_neg (by simp [s3_not_file uri h]), if_pos h]
  · intro fs uri hs3 hex
    rw [move_to_processed]
    by_cases hf : strStarts uri "file://" = true
    · rw [if_pos hf] at hex
      have hmem : uri.drop 7 ∉ fs.files := by simpa using hex
      rw [if_pos hf]
      simp [moveLocal, hmem]
    · rw [if_neg hf] at hex
      have hmem : uri ∉ fs.files := by simpa using hex
      rw [if_neg hf, if_neg (by simp [hs3])]
      simp [moveLocal, hmem]
  · intro fs uri hs3 hmk
    rw [move_to_processed]
    by_cases hf : strStarts uri "file://" = true
    · rw [if_pos hf] at hmk
      rw [if_pos hf]
      by_cases hex : uri.drop 7 ∈ fs.files
      · simp [moveLocal, hex, hmk]
      · simp [moveLocal, hex]
    · rw [if_neg hf] at hmk
      rw [if_neg hf, if_neg (by simp [hs3])]
      by_cases hex : uri ∈ fs.files
      · simp [moveLocal, hex, hmk]
      · simp [moveLocal, hex]
  · intro fs uri hs3 hmv
    rw [move_to_processed]
    by_cases hf : strStarts uri "file://" = true
    · rw [if_pos hf] at hmv
      rw [if_pos hf]
      by_cases hex : uri.drop 7 ∈ fs.files
      · by_cases hmk : fs.mkdirOk (pathJoin (pathParent (uri.drop 7)) "processed") = true
        · simp [moveLocal, hex, hmk, hmv]
        · simp [moveLocal, hex, hmk]
      · simp [moveLocal, hex]
    · rw [if_neg hf] at hmv
      rw [if_neg hf, if_neg (by simp [hs3])]
      by_cases hex : uri ∈ fs.files
      · by_cases hmk : fs.mkdirOk (pathJoin (pathParent uri) "processed") = true
        · simp [moveLocal, hex, hmk, hmv]
        · simp [moveLocal, hex, hmk]
      · simp [moveLocal, hex]
  · intro env fs2 ld uri
    have hmap : ∀ (x : Except Unit InvoiceData) (f : InvoiceData → InvoiceData),
        exceptIsOk (x.map f) = exceptIsOk x := by
      intro x f
      cases x <;> rfl
    rw [perFilePipeline, perFilePipeline, hmap, hmap]

theorem c10_witness :
    move_to_processed fs10 "s3://bucket/k.pdf" = "s3://bucket/k.pdf" ∧
    move_to_processed fs10 "file:///d/a.pdf" = "file:///d/a.pdf" ∧
    exceptIsOk (perFilePipeline env6 true "f.pdf") =
      exceptIsOk (perFilePipeline { env6 with fs := fs10 } true "f.pdf") := by
  refine ⟨?_, ?_, ?_⟩
  · exact c10_theorem.1 fs10 "s3://bucket/k.pdf" rfl
  · exact c10_theorem.2.2.1 fs10 "file:///d/a.pdf" rfl rfl
  · exact c10_theorem.2.2.2.2 env6 fs10 true "f.pdf"

/-! ## Claim C7: tax-amount resolution order -/

/-- C7 (corrected): `map_receipt` resolves the tax amount from the
dedicated `TotalTax` field first and falls back to the generic `Tax`
field when that yields nothing; `map_invoice` reads ONLY `TotalTax` and
has no fallback — when `TotalTax` is absent its `tax_amount` is null no
matter what `Tax` carries. -/
theorem c7_theorem :
    (∀ dp di fn sp lang fu fields d, locateFields di = .ok fields →
      map_invoice dp di fn sp lang fu = .ok d →
      (alookup fields "TotalTax" = none → d.tax_amount = none) ∧
      (∀ q c, getCurrencyValue (fieldGetD fields "TotalTax") = .ok (some q, c) →
        d.tax_amount = some q)) ∧
    (∀ dp di fn sp lang fu fields d, locateFields di = .ok fields →
      map_receipt dp di fn sp lang fu = .ok d →
      (∀ q c, getCurrencyValue (fieldGetD fields "TotalTax") = .ok (some q, c) →
        d.tax_amount = some q) ∧
      (∀ c tq c2, getCurrencyValue (fieldGetD fields "TotalTax") = .ok (none, c) →
        getCurrencyValue (fieldGetD fields "Tax") = .ok (tq, c2) → d.tax_amount = tq)) := by
  constructor
  · intro dp di fn sp lang fu fields d hloc hm
    rw [map_invoice] at hm
    obtain ⟨fields1, hf1, hm⟩ := exbind_ok.mp hm
    rw [hloc] at hf1
    injection hf1 with hf1
    subst hf1
    obtain ⟨items, hi, hm⟩ := exbind_ok.mp hm
    obtain ⟨sub, hsub, hm⟩ := exbind_ok.mp hm
    obtain ⟨tax, htax, hm⟩ := exbind_ok.mp hm
    obtain ⟨tot, htot, hm⟩ := exbind_ok.mp hm
    obtain ⟨cc, hcc, hm⟩ := exbind_ok.mp hm
    obtain ⟨sup, hsup, hm⟩ := exbind_ok.mp hm
    obtain ⟨invn, hinvn, hm⟩ := exbind_ok.mp hm
    obtain ⟨cur, hcur, hm⟩ := exbind_ok.mp hm
    obtain ⟨conf, hconf, hm⟩ := exbind_ok.mp hm
    obtain ⟨fconf, hfconf, hm⟩ := exbind_ok.mp hm
    rw [expure_ok] at hm
    subst hm
    constructor
    · intro htt
      have hfe : fieldGetD fields "TotalTax" = .obj [] := by simp [fieldGetD, htt]
      rw [hfe, show getCurrencyValue (.obj ([] : List (String × JVal))) = .ok (none, .null)
        from rfl] at htax
      injection htax with htax
      rw [← htax]
    · intro q c hq
      rw [hq] at htax
      injection htax with htax
      rw [← htax]
  · intro dp di fn sp lang fu fields d hloc hm
    rw [map_receipt] at hm
    obtain ⟨fields1, hf1, hm⟩ := exbind_ok.mp hm
    rw [hloc] at hf1
    injection hf1 with hf1
    subst hf1
    obtain ⟨items, hi, hm⟩ := exbind_ok.mp hm
    obtain ⟨sub, hsub, hm⟩ := exbind_ok.mp hm
    obtain ⟨tax0, htax0, hm⟩ := exbind_ok.mp hm
    obtain ⟨taxv, htaxv, hm⟩ := exbind_ok.mp hm
    obtain ⟨tot, htot, hm⟩ := exbind_ok.mp hm
    obtain ⟨cc, hcc, hm⟩ := exbind_ok.mp hm
    obtain ⟨sup, hsup, hm⟩ := exbind_ok.mp hm
    obtain ⟨cur, hcur, hm⟩ := exbind_ok.mp hm
    obtain ⟨conf, hconf, hm⟩ := exbind_ok.mp hm
    obtain ⟨fconf, hfconf, hm⟩ := exbind_ok.mp hm
    rw [expure_ok] at hm
    subst hm
    constructor
    · intro q c hq
      rw [hq] at htax0
      injection htax0 with htax0
      rw [← htax0] at htaxv
      dsimp only at htaxv
      simp only [taxFallback] at htaxv
      rw [expure_ok] at htaxv
      rw [← htaxv]
    · intro c tq c2 hq hq2
      rw [hq] at htax0
      injection htax0 with htax0
      rw [← htax0] at htaxv
      dsimp only at htaxv
      simp only [taxFallback] at htaxv
      obtain ⟨t, ht, htaxv⟩ := exbind_ok.mp htaxv
      rw [hq2] at ht
      injection ht with ht
      rw [expure_ok] at htaxv
      rw [← htaxv, ← ht]

/-- C7 counterexample: with `Tax` present (amount 17) and `TotalTax`
absent, `map_receipt` falls back and yields 17 but `map_invoice` yields
null — the claimed fallback does not exist in `map_invoice`. -/
theorem c7_counterexample :
    (map_invoice dp0 di7 "f" "s" "en" none).toOption.map (fun d => d.tax_amount) =
      some none ∧
    (map_receipt dp0 di7 "f" "s" "en" none).toOption.map (fun d => d.tax_amount) =
      some (some 17) ∧
    alookup fields7 "Tax" =
      some (.obj [("valueCurrency",
        .obj [("amount", .num 17), ("currencyCode", .str "USD")])]) := by
  exact ⟨rfl, rfl, rfl⟩

theorem c7_witness :
    map_invoice dp0 di7 "f" "s" "en" none = .ok invoiceD7 ∧ invoiceD7.tax_amount = none ∧
    map_receipt dp0 di7 "f" "s" "en" none = .ok receiptD7 ∧
    receiptD7.tax_amount = some 17 := by
  have h1 : map_invoice dp0 di7 "f" "s" "en" none = .ok invoiceD7 := by rfl
  have h2 : map_receipt dp0 di7 "f" "s" "en" none = .ok receiptD7 := by rfl
  have hl : locateFields di7 = .ok fields7 := by rfl
  refine ⟨h1, ?_, h2, ?_⟩
  · exact (c7_theorem.1 dp0 di7 "f" "s" "en" none fields7 invoiceD7 hl h1).1 rfl
  · exact (c7_theorem.2 dp0 di7 "f" "s" "en" none fields7 receiptD7 hl h2).2
      .null (some 17) (.str "USD") rfl rfl

/-! ## Claim C8: first-wins vs overwrite in the box/confidence loops -/

theorem alookup_none_of_ne {α : Type} (k : String) (v : α) (c : String) (h : k ≠ c) :
    alookup [(k, v)] c = none := by
  simp [alookup, h]

theorem invoiceBoxLoopGo_boxes (fields : List (String × JVal)) (dims : PageDims) :
    ∀ (m : List (String × String)) (boxes : List (String × BoundingBox))
      (confs : List (String × JVal)) (c : String),
      alookup (invoiceBoxLoopGo fields dims m boxes confs).1 c =
        oOr (alookup boxes c) (boxHits fields dims m c).head? := by
  intro m
  induction m with
  | nil =>
    intro boxes confs c
    simp [invoiceBoxLoopGo, boxHits, oOr_none_right]
  | cons p rest ih =>
    obtain ⟨az, ourf⟩ := p
    intro boxes confs c
    cases hp : alookup fields az with
    | none => simp [invoiceBoxLoopGo, boxHits, hp, ih]
    | some fv =>
      simp only [invoiceBoxLoopGo, boxHits, hp, Option.isSome_some, if_true]
      rw [ih]
      by_cases hoc : ourf = c
      · subst hoc
        cases hb : alookup boxes ourf with
        | some b =>
          simp [hb, oOr]
        | none =>
          cases hx : extract_bounding_box (fieldGetD fields az) dims with
          | none => simp [hb, hx, oOr]
          | some bb => simp [hb, hx, oOr, alookup_append, alookup]
      · have hne : (ourf = c ∧ True) = False := by simp [hoc]
        cases hb : alookup boxes ourf with
        | some b =>
          simp [hb, hoc, oOr]
        | none =>
          cases hx : extract_bounding_box (fieldGetD fields az) dims with
          | none => simp [hb, hx, hoc]
          | some bb =>
            simp [hb, hx, hoc, alookup_append, alookup_none_of_ne ourf bb c hoc,
              oOr_none_right]

theorem invoiceBoxLoopGo_confs (fields : List (String × JVal)) (dims : PageDims) :
    ∀ (m : List (String × String)) (boxes : List (String × BoundingBox))
      (confs : List (String × JVal)) (c : String),
      alookup (invoiceBoxLoopGo fields dims m boxes confs).2 c =
        oOr (alookup confs c) (confHits fields m c).head? := by
  intro m
  induction m with
  | nil =>
    intro boxes confs c
    simp [invoiceBoxLoopGo, confHits, oOr_none_right]
  | cons p rest ih =>
    obtain ⟨az, ourf⟩ := p
    intro boxes confs c
    cases hp : alookup fields az with
    | none => simp [invoiceBoxLoopGo, confHits, hp, ih]
    | some fv =>
      simp only [invoiceBoxLoopGo, confHits, hp, Option.isSome_some, if_true]
      rw [ih]
      by_cases hoc : ourf = c
      · subst hoc
        cases hb : alookup confs ourf with
        | some b =>
          simp [hb, oOr]
        | none =>
          cases hx : extract_field_confidence (fieldGetD fields az) with
          | none => simp [hb, hx, oOr]
          | some cv => simp [hb, hx, oOr, alookup_append, alookup]
      · cases hb : alookup confs ourf with
        | some b =>
          simp [hb, hoc, oOr]
        | none =>
          cases hx : extract_field_confidence (fieldGetD fields az) with
          | none => simp [hb, hx, hoc]
          | some cv =>
            simp [hb, hx, hoc, alookup_append, alookup_none_of_ne ourf cv c hoc,
              oOr_none_right]

theorem receiptBoxLoopGo_confs (fields : List (String × JVal)) (dims : PageDims) :
    ∀ (m : List (String × String)) (boxes : List (String × BoundingBox))
      (confs : List (String × JVal)) (c : String),
      alookup (receiptBoxLoopGo fields dims m boxes confs).2 c =
        oOr (alookup confs c) (confHits fields m c).head? := by
  intro m
  induction m with
  | nil =>
    intro boxes confs c
    simp [receiptBoxLoopGo, confHits, oOr_none_right]
  | cons p rest ih =>
    obtain ⟨az, ourf⟩ := p
    intro boxes confs c
    cases hp : alookup fields az with
    | none => simp [receiptBoxLoopGo, confHits, hp, ih]
    | some fv =>
      simp only [receiptBoxLoopGo, confHits, hp, Option.isSome_some, if_true]
      rw [ih]
      by_cases hoc : ourf = c
      · subst hoc
        cases hb : alookup confs ourf with
        | some b =>
          simp [hb, oOr]
        | none =>
          cases hx : extract_field_confidence (fieldGetD fields az) with
          | none => simp [hb, hx, oOr]
          | some cv => simp [hb, hx, oOr, alookup_append, alookup]
      · cases hb : alookup confs ourf with
        | some b =>
          simp [hb, hoc, oOr]
        | none =>
          cases hx : extract_field_confidence (fieldGetD fields az) with
          | none => simp [hb, hx, hoc]
          | some cv =>
            simp [hb, hx, hoc, alookup_append, alookup_none_of_ne ourf cv c hoc,
              oOr_none_right]

theorem receiptBoxLoopGo_boxes (fields : List (String × JVal)) (dims : PageDims) :
    ∀ (m : List (String × String)) (boxes : List (String × BoundingBox))
      (confs : List (String × JVal)) (c : String),
      alookup (receiptBoxLoopGo fields dims m boxes confs).1 c =
        oOr (boxHits fields dims m c).getLast? (alookup boxes c) := by
  intro m
  induction m with
  | nil =>
    intro boxes confs c
    simp [receiptBoxLoopGo, boxHits, oOr]
  | cons p rest ih =>
    obtain ⟨az, ourf⟩ := p
    intro boxes confs c
    cases hp : alookup fields az with
    | none => simp [receiptBoxLoopGo, boxHits, hp, ih]
    | some fv =>
      simp only [receiptBoxLoopGo, boxHits, hp, Option.isSome_some, if_true]
      rw [ih]
      by_cases hoc : ourf = c
      · subst hoc
        cases hx : extract_bounding_box (fieldGetD fields az) dims with
        | none => simp [hx, oOr]
        | some bb =>
          simp only [hx, Option.toList_some, List.singleton_append,
            alookup_setKeyS, if_pos rfl, if_true, true_and]
          rw [getLast?_cons_oOr, oOr_assoc, oOr_some_left]
      · cases hx : extract_bounding_box (fieldGetD fields az) dims with
        | none => simp [hx, hoc]
        | some bb =>
          have hne : ¬ ourf = c := hoc
          simp [hx, hoc, alookup_setKeyS, hne]

/-- C8 (corrected): per-field confidences are recorded first-wins (no
overwrite) in both mappers, and bounding boxes are recorded first-wins
in `map_invoice`; but `map_receipt`'s unguarded box assignment means the
LAST provider field whose extraction yields a box wins for a shared
canonical name. -/
theorem c8_theorem (fields : List (String × JVal)) (dims : PageDims) (c : String) :
    alookup (invoiceBoxLoop fields dims).1 c =
      specFirstBox fields dims invoiceFieldMapping c ∧
    alookup (invoiceBoxLoop fields dims).2 c =
      specFirstConf fields invoiceFieldMapping c ∧
    alookup (receiptBoxLoop fields dims).2 c =
      specFirstConf fields receiptFieldMapping c ∧
    alookup (receiptBoxLoop fields dims).1 c =
      specLastBox fields dims receiptFieldMapping c := by
  refine ⟨?_, ?_, ?_, ?_⟩
  · rw [invoiceBoxLoop, invoiceBoxLoopGo_boxes, specFirstBox]
    rfl
  · rw [invoiceBoxLoop, invoiceBoxLoopGo_confs, specFirstConf]
    rfl
  · rw [receiptBoxLoop, receiptBoxLoopGo_confs, specFirstConf]
    rfl
  · rw [receiptBoxLoop, receiptBoxLoopGo_boxes, specLastBox]
    rw [show alookup ([] : List (String × BoundingBox)) c = none from rfl, oOr_none_right]

/-- C8 counterexample: with `TotalTax` (earlier in the fixed order) and
`Tax` both carrying boxes, the receipt loop records `Tax`'s box for
`tax_amount`, not the first one, and `map_receipt` emits it. -/
theorem c8_counterexample :
    specFirstBox fields8 dims1 receiptFieldMapping "tax_amount" =
      some ⟨[[0, 0], [1, 0], [1, 1], [0, 1]], 1⟩ ∧
    alookup (receiptBoxLoop fields8 dims1).1 "tax_amount" =
      some ⟨[[0, 0], [2, 0], [2, 2], [0, 2]], 1⟩ ∧
    (⟨[[0, 0], [1, 0], [1, 1], [0, 1]], 1⟩ : BoundingBox) ≠
      ⟨[[0, 0], [2, 0], [2, 2], [0, 2]], 1⟩ ∧
    (map_receipt dp0 di8 "f" "s" "en" none).toOption.map (fun d => d.bounding_boxes) =
      some (some [("tax_amount", ⟨[[0, 0], [2, 0], [2, 2], [0, 2]], 1⟩)]) := by
  refine ⟨?_, ?_, by decide, ?_⟩
  · simp [specFirstBox, boxHits, receiptFieldMapping, fields8, bboxField, fieldGetD,
      alookup, dims1, extract_bounding_box, regionObjOf, asArr, scalarKey, dimsPair,
      alookupJ, jKeyEq, normPairs, intCoerce, Option.bind, div_one]
  · simp [receiptBoxLoop, receiptBoxLoopGo, receiptFieldMapping, fields8, bboxField,
      fieldGetD, alookup, dims1, extract_bounding_box, regionObjOf, asArr, scalarKey,
      dimsPair, extract_field_confidence, alookupJ, jKeyEq, normPairs, intCoerce, setKeyS,
      Option.bind, div_one]
  · simp [map_receipt, di8, fields8, bboxField, locateFields, fieldsTop, alookup, jTruthy,
      itemsOf, getCurrencyValue, fieldGetD, safeFloat, taxFallback, currencyCodeFallback,
      get_page_dimensions, buildPageDims, setKeyJ, jKeyEq, get_page_count, receiptBoxLoop,
      receiptBoxLoopGo, receiptFieldMapping, extract_bounding_box, regionObjOf, asArr,
      scalarKey, dimsPair, extract_field_confidence, alookupJ, normPairs, intCoerce, setKeyS,
      valueStringRaw, valueDateRaw, parse_date, coerceOptStr, pyOrNoneQ, coerceConfidence,
      confCoerce, coerceConfMap, pyListOpt, objGet, dp0, div_one, Bind.bind, Except.bind,
      pure, Except.pure, Except.toOption, Except.map, Option.bind]

/-! ## Claim C3: bounding-box production and normalization -/

theorem normPairs_shape (pw ph : ℚ) :
    ∀ (n : Nat) (poly : List JVal) (pts : List (List ℚ)), poly.length ≤ n →
      normPairs pw ph poly = some pts →
      poly.length = 2 * pts.length ∧ (∀ pt ∈ pts, pt.length = 2) := by
  intro n
  induction n with
  | zero =>
    intro poly pts hl h
    rcases poly with _ | ⟨x, rest⟩
    · simp [normPairs] at h
      subst h
      simp
    · simp at hl
  | succ n ih =>
    intro poly pts hl h
    rcases poly with _ | ⟨x, _ | ⟨y, rest⟩⟩
    · simp [normPairs] at h
      subst h
      simp
    · cases x <;> simp [normPairs] at h
    · cases x <;> cases y <;> simp [normPairs] at h
      obtain ⟨ts, hts, hpts⟩ := h
      obtain ⟨hlen, hall⟩ := ih rest ts (by simp at hl; omega) hts
      subst hpts
      constructor
      · simp [hlen]
        ring
      · intro pt hpt
        rcases List.mem_cons.mp hpt with hpt | hpt
        · subst hpt
          rfl
        · exact hall pt hpt

theorem normPairs_bounded (pw ph : ℚ) (hpw : 0 < pw) (hph : 0 < ph) :
    ∀ (n : Nat) (poly : List JVal) (pts : List (List ℚ)), poly.length ≤ n →
      normPairs pw ph poly = some pts → polyBounded pw ph poly = true →
      ∀ pt ∈ pts, ∀ x ∈ pt, 0 ≤ x ∧ x ≤ 1 := by
  intro n
  induction n with
  | zero =>
    intro poly pts hl h hb
    rcases poly with _ | ⟨x, rest⟩
    · simp [normPairs] at h
      subst h
      simp
    · simp at hl
  | succ n ih =>
    intro poly pts hl h hb
    rcases poly with _ | ⟨x, _ | ⟨y, rest⟩⟩
    · simp [normPairs] at h
      subst h
      simp
    · cases x <;> simp [normPairs] at h
    · cases x <;> cases y <;> simp [normPairs] at h
      simp only [polyBounded, Bool.and_eq_true, decide_eq_true_eq] at hb
      obtain ⟨⟨⟨⟨h0a, hapw⟩, h0b⟩, hbph⟩, hrest⟩ := hb
      obtain ⟨ts, hts, hpts⟩ := h
      subst hpts
      intro pt hpt
      rcases List.mem_cons.mp hpt with hpt | hpt
      · subst hpt
        intro z hz
        rcases List.mem_cons.mp hz with hz | hz
        · subst hz
          exact ⟨div_nonneg h0a hpw.le, (div_le_one hpw).mpr hapw⟩
        · rcases List.mem_cons.mp hz with hz | hz
          · subst hz
            exact ⟨div_nonneg h0b hph.le, (div_le_one hph).mpr hbph⟩
          · simp at hz
      · exact ih rest ts (by simp at hl; omega) hts hrest pt hpt

/-- C3 (corrected): `_extract_bounding_box` produces a box only when the
first bounding region's polygon is a numeric list of at least 8
coordinates AND the referenced page number is a key of the supplied
page-dimension map with numeric, nonzero width and height; every
produced polygon is the list of coordinate pairs divided by those
dimensions — at least four points of two coordinates each, all lying in
[0,1] whenever the dimensions are positive and bound the raw polygon.
However `_get_page_dimensions` substitutes the default map `{1: (1, 1)}`
when the payload carries no page entries, so a box can still be produced
— unnormalized — despite absent page-dimension metadata. -/
theorem c3_theorem :
    (∀ field dims bb, extract_bounding_box field dims = some bb →
      ∃ rkv poly pn wh pw ph,
        regionObjOf field = some rkv ∧
        asArr ((alookup rkv "polygon").getD (.arr [])) = some poly ∧
        8 ≤ poly.length ∧
        scalarKey ((alookup rkv "pageNumber").getD (.num 1)) = some pn ∧
        alookupJ dims pn = some wh ∧
        dimsPair wh = some (pw, ph) ∧
        pw ≠ 0 ∧ ph ≠ 0 ∧
        normPairs pw ph poly = some bb.polygon ∧
        intCoerce pn = some bb.page_number ∧
        4 ≤ bb.polygon.length ∧
        (∀ pt ∈ bb.polygon, pt.length = 2)) ∧
    (∀ kvs, alookup kvs "pages" = none →
      get_page_dimensions (.obj kvs) = defaultPageDims) ∧
    (∀ pw ph poly pts, 0 < pw → 0 < ph → normPairs pw ph poly = some pts →
      polyBounded pw ph poly = true → ∀ pt ∈ pts, ∀ x ∈ pt, 0 ≤ x ∧ x ≤ 1) := by
  refine ⟨?_, ?_, ?_⟩
  · intro field dims bb h
    rw [extract_bounding_box] at h
    obtain ⟨rkv, hr, h⟩ := Option.bind_eq_some.mp h
    obtain ⟨poly, hpoly, h⟩ := Option.bind_eq_some.mp h
    by_cases hlen : poly.length < 8
    · rw [if_pos hlen] at h
      exact absurd h (by simp)
    · rw [if_neg hlen] at h
      obtain ⟨pn, hpn, h⟩ := Option.bind_eq_some.mp h
      obtain ⟨wh, hwh, h⟩ := Option.bind_eq_some.mp h
      obtain ⟨pq, hpq, h⟩ := Option.bind_eq_some.mp h
      by_cases hz : pq.1 = 0 ∨ pq.2 = 0
      · rw [if_pos hz] at h
        exact absurd h (by simp)
      · rw [if_neg hz] at h
        obtain ⟨pts, hpts, h⟩ := Option.bind_eq_some.mp h
        obtain ⟨nn, hn, hb⟩ := Option.map_eq_some'.mp h
        push_neg at hz
        obtain ⟨hshape1, hshape2⟩ :=
          normPairs_shape pq.1 pq.2 poly.length poly pts le_rfl hpts
        refine ⟨rkv, poly, pn, wh, pq.1, pq.2, hr, hpoly, by omega, hpn, hwh,
          (by rw [hpq]), hz.1, hz.2, ?_, ?_, ?_, ?_⟩
        · rw [← hb]
          exact hpts
        · rw [← hb]
          exact hn
        · rw [← hb]
          simp only []
          omega
        · rw [← hb]
          intro pt hpt
          exact hshape2 pt hpt
  · intro kvs h
    simp [get_page_dimensions, h, buildPageDims]
  · intro pw ph poly pts hpw hph h hb
    exact normPairs_bounded pw ph hpw hph poly.length poly pts le_rfl h hb

/-- C3 counterexample: a payload with NO page metadata still yields a
bounding box — the dimension map defaults to `{1: (1, 1)}` and the
resulting "normalized" coordinates (e.g. 100) lie far outside [0,1]. -/
theorem c3_counterexample :
    alookup [("fields", JVal.obj [("InvoiceTotal", field3)])] "pages" = none ∧
    get_page_dimensions di3 = defaultPageDims ∧
    extract_bounding_box field3 (get_page_dimensions di3) =
      some ⟨[[100, 50], [200, 50], [200, 150], [100, 150]], 1⟩ ∧
    ¬ ((100 : ℚ) ≤ 1) := by
  refine ⟨rfl, rfl, ?_, by norm_num⟩
  rw [show get_page_dimensions di3 = defaultPageDims from rfl]
  simp [field3, bboxField, defaultPageDims, extract_bounding_box, regionObjOf, asArr,
    scalarKey, dimsPair, alookup, alookupJ, jKeyEq, normPairs, intCoerce, Option.bind,
    div_one]

theorem c3_witness :
    extract_bounding_box (fieldGetD fields8 "TotalTax") dims1 =
      some ⟨[[0, 0], [1, 0], [1, 1], [0, 1]], 1⟩ ∧
    4 ≤ ([[(0 : ℚ), 0], [1, 0], [1, 1], [0, 1]] : List (List ℚ)).length ∧
    alookup [("other", JVal.null)] "pages" = none ∧
    get_page_dimensions (.obj [("other", JVal.null)]) = defaultPageDims ∧
    (0 : ℚ) < 1 ∧
    normPairs 1 1 poly3w = some [[0, 0], [1, 0], [1, 1], [0, 1]] ∧
    polyBounded 1 1 poly3w = true ∧
    (∀ pt ∈ ([[(0 : ℚ), 0], [1, 0], [1, 1], [0, 1]] : List (List ℚ)),
      ∀ x ∈ pt, 0 ≤ x ∧ x ≤ 1) := by
  have hex : extract_bounding_box (fieldGetD fields8 "TotalTax") dims1 =
      some ⟨[[0, 0], [1, 0], [1, 1], [0, 1]], 1⟩ := by
    simp [fields8, bboxField, fieldGetD, alookup, dims1, extract_bounding_box, regionObjOf,
      asArr, scalarKey, dimsPair, alookupJ, jKeyEq, normPairs, intCoerce, Option.bind,
      div_one]
  have hnp : normPairs 1 1 poly3w = some [[0, 0], [1, 0], [1, 1], [0, 1]] := by
    simp [poly3w, normPairs, div_one]
  have h4 : 4 ≤ ([[(0 : ℚ), 0], [1, 0], [1, 1], [0, 1]] : List (List ℚ)).length := by
    obtain ⟨rkv, poly, pn, wh, pw, ph, hh⟩ :=
      c3_theorem.1 (fieldGetD fields8 "TotalTax") dims1 _ hex
    exact hh.2.2.2.2.2.2.2.2.2.2.1
  refine ⟨hex, h4, rfl, c3_theorem.2.1 [("other", JVal.null)] rfl, by norm_num, hnp,
    by decide, ?_⟩
  exact c3_theorem.2.2 1 1 poly3w [[0, 0], [1, 0], [1, 1], [0, 1]]
    (by norm_num) (by norm_num) hnp (by decide)

end InvoiceHandler
